import Mathlib

/-!
Verification of the OpenClaw config helper (oc_config_helper.py).

JSON documents are modelled as an inductive type `JVal`; Python dicts are
modelled as association lists with first-occurrence lookup, in-place
replacement on assignment to an existing key, and append on assignment to
a fresh key — exactly the observable semantics of Python's insertion-ordered
dicts.  JSON numbers are modelled as rationals, which identifies Python's
`1` and `1.0` just as Python `==` does.
-/

inductive JVal where
  | null
  | bool (b : Bool)
  | num (q : Rat)
  | str (s : String)
  | arr (elems : List JVal)
  | obj (fields : List (String × JVal))

mutual

def decEqJVal (a b : JVal) : Decidable (a = b) :=
  match a, b with
  | .null, .null => .isTrue rfl
  | .bool a, .bool b => decidable_of_iff (a = b) (by simp)
  | .num a, .num b => decidable_of_iff (a = b) (by simp)
  | .str a, .str b => decidable_of_iff (a = b) (by simp)
  | .arr a, .arr b =>
    match decEqJList a b with
    | .isTrue h => .isTrue (by rw [h])
    | .isFalse h => .isFalse (fun he => h (by cases he; rfl))
  | .obj a, .obj b =>
    match decEqJFields a b with
    | .isTrue h => .isTrue (by rw [h])
    | .isFalse h => .isFalse (fun he => h (by cases he; rfl))
  | .null, .bool _ | .null, .num _ | .null, .str _ | .null, .arr _ | .null, .obj _
  | .bool _, .null | .bool _, .num _ | .bool _, .str _ | .bool _, .arr _ | .bool _, .obj _
  | .num _, .null | .num _, .bool _ | .num _, .str _ | .num _, .arr _ | .num _, .obj _
  | .str _, .null | .str _, .bool _ | .str _, .num _ | .str _, .arr _ | .str _, .obj _
  | .arr _, .null | .arr _, .bool _ | .arr _, .num _ | .arr _, .str _ | .arr _, .obj _
  | .obj _, .null | .obj _, .bool _ | .obj _, .num _ | .obj _, .str _ | .obj _, .arr _ =>
    .isFalse nofun
termination_by structural a

def decEqJList (a b : List JVal) : Decidable (a = b) :=
  match a, b with
  | [], [] => .isTrue rfl
  | [], _ :: _ => .isFalse nofun
  | _ :: _, [] => .isFalse nofun
  | x :: xs, y :: ys =>
    match decEqJVal x y, decEqJList xs ys with
    | .isTrue h1, .isTrue h2 => .isTrue (by rw [h1, h2])
    | .isFalse h1, _ => .isFalse (fun he => h1 (by cases he; rfl))
    | _, .isFalse h2 => .isFalse (fun he => h2 (by cases he; rfl))
termination_by structural a

def decEqJFields (a b : List (String × JVal)) : Decidable (a = b) :=
  match a, b with
  | [], [] => .isTrue rfl
  | [], _ :: _ => .isFalse nofun
  | _ :: _, [] => .isFalse nofun
  | (k, v) :: xs, (l, w) :: ys =>
    if hk : k = l then
      match decEqJVal v w, decEqJFields xs ys with
      | .isTrue h1, .isTrue h2 => .isTrue (by rw [hk, h1, h2])
      | .isFalse h1, _ => .isFalse (fun he => h1 (by cases he; rfl))
      | _, .isFalse h2 => .isFalse (fun he => h2 (by cases he; rfl))
    else .isFalse (fun he => hk (by cases he; rfl))
termination_by structural a

end

instance : DecidableEq JVal := decEqJVal

/-! ### Python-dict primitives on association lists

`dictGet` is `d.get(k)` / `k in d`; `dictSet` is `d[k] = v` (replace in place
when the key exists, append otherwise — Python keeps the key
position on reassignment); `dictDel` is `del d[k]`. -/

def dictGet : List (String × JVal) → String → Option JVal
  | [], _ => none
  | (k, v) :: rest, key => if k = key then some v else dictGet rest key

def dictSet : List (String × JVal) → String → JVal → List (String × JVal)
  | [], key, v => [(key, v)]
  | (k, w) :: rest, key, v =>
    if k = key then (k, v) :: rest else (k, w) :: dictSet rest key v

/-- `del d[k]`.  A Python dict holds at most one binding per key, so the
faithful assoc-list model removes every pair with that key. -/
def dictDel : List (String × JVal) → String → List (String × JVal)
  | [], _ => []
  | (k, w) :: rest, key =>
    if k = key then dictDel rest key else (k, w) :: dictDel rest key

/-- `d.setdefault(k, {})` followed by the requirement that the value there is
a mapping: returns the (possibly extended) dict together with the fields of
the sub-dict at `k`; `none` models the `TypeError`/`AttributeError` Python
raises when a non-mapping sits where the helper needs a mapping. -/
def ensureObj (d : List (String × JVal)) (k : String) :
    Option (List (String × JVal) × List (String × JVal)) :=
  match dictGet d k with
  | none => some (dictSet d k (.obj []), [])
  | some (.obj fs) => some (d, fs)
  | some _ => none

/-- Fields of the top-level document as `read_config`'s caller sees them:
`None` (missing or unreadable file) is treated as the empty mapping, a
non-object JSON root makes the helper raise. -/
def rootFields : Option JVal → Option (List (String × JVal))
  | none => some []
  | some (.obj fs) => some fs
  | some _ => none

/-! ### Paths into a document -/

def getPath : JVal → List String → Option JVal
  | j, [] => some j
  | .obj fs, k :: p =>
    match dictGet fs k with
    | some v => getPath v p
    | none => none
  | _, _ :: _ => none

/-- `getPath` lifted to a possibly-absent value. -/
def getPathO (o : Option JVal) (p : List String) : Option JVal :=
  match o with
  | none => none
  | some j => getPath j p

def pathLE : List String → List String → Bool
  | [], _ => true
  | _ :: _, [] => false
  | a :: as, b :: bs => a == b && pathLE as bs

/-- The managed sub-trees of the configuration document: the five gateway
fields and the four memory sub-trees. -/
def managedPaths : List (List String) :=
  [["gateway", "mode"],
   ["gateway", "bind"],
   ["gateway", "port"],
   ["gateway", "http", "endpoints", "chatCompletions", "enabled"],
   ["gateway", "controlUi", "allowInsecureAuth"],
   ["agents", "defaults", "memorySearch"],
   ["agents", "defaults", "compaction"],
   ["plugins", "entries", "openclaw-mem0"],
   ["plugins", "entries", "memory-cognee"]]

/-- A path lies outside every sub-tree of `M`: it is neither a prefix of a
path of `M` nor an extension of one. -/
def outside (M : List (List String)) (p : List String) : Bool :=
  M.all fun m => !pathLE m p && !pathLE p m

/-- The managed gateway sub-paths, relative to the `gateway` object. -/
def gwInner : List (List String) :=
  [["mode"], ["bind"], ["port"],
   ["http", "endpoints", "chatCompletions", "enabled"],
   ["controlUi", "allowInsecureAuth"]]

/-- The managed memory sub-paths, relative to the `agents` object. -/
def agInner : List (List String) :=
  [["defaults", "memorySearch"], ["defaults", "compaction"]]

/-- The managed plugin sub-paths, relative to the `plugins` object. -/
def plInner : List (List String) :=
  [["entries", "openclaw-mem0"], ["entries", "memory-cognee"]]

/-! ### Gateway settings (apply_gateway_settings) -/

/-- One `"field: old -> new"` change note, kept structured: the f-string in
the source interpolates exactly the field name, the old and the new value. -/
structure Note where
  field : String
  old : JVal
  new : JVal
deriving DecidableEq

inductive GwResult where
  | invalid (msg : String)
  | typeError
  | ok (doc : JVal) (changes : List Note)
deriving DecidableEq

/-- One managed scalar field: read the current value (with its default for
absence), overwrite when it differs from the desired value and record a
change note. -/
def updateField (fs : List (String × JVal)) (key : String) (dflt desired : JVal)
    (noteName : String) : List (String × JVal) × List Note :=
  if (dictGet fs key).getD dflt = desired then (fs, [])
  else (dictSet fs key desired, [⟨noteName, (dictGet fs key).getD dflt, desired⟩])

/-- The field-by-field merge step of `apply_gateway_settings`, once all the
containers exist: `cfg`/`gw`/`cu`/`http`/`ep`/`cc` are the fields of the
document root, `gateway`, `gateway.controlUi`, `gateway.http`,
`gateway.http.endpoints` and `gateway.http.endpoints.chatCompletions`
after the ensure steps. -/
def gwMerge (mode bind_mode : String) (port : Int)
    (enable_openai_api allow_insecure_auth : Bool)
    (cfg gw cu http ep cc : List (String × JVal)) : JVal × List Note :=
  let u1 := updateField gw "mode" (.str "") (.str mode) "mode"
  let u2 := updateField u1.1 "bind" (.str "") (.str bind_mode) "bind"
  let u3 := updateField u2.1 "port" (.num 18789) (.num port) "port"
  let u4 :=
    updateField cc "enabled" (.bool false) (.bool enable_openai_api)
      "chatCompletions.enabled"
  let u5 :=
    updateField cu "allowInsecureAuth" (.bool false) (.bool allow_insecure_auth)
      "allowInsecureAuth"
  let ep1 := dictSet ep "chatCompletions" (.obj u4.1)
  let http1 := dictSet http "endpoints" (.obj ep1)
  let gwH := dictSet u3.1 "http" (.obj http1)
  let gwC := dictSet gwH "controlUi" (.obj u5.1)
  (.obj (dictSet cfg "gateway" (.obj gwC)), u1.2 ++ u2.2 ++ u3.2 ++ u4.2 ++ u5.2)

def apply_gateway_settings (mode bind_mode : String) (port : Int)
    (enable_openai_api allow_insecure_auth : Bool) (cfg0 : Option JVal) : GwResult :=
  if mode ≠ "local" ∧ mode ≠ "remote" then
    .invalid "ERROR: Invalid mode. Must be local or remote"
  else if bind_mode ≠ "loopback" ∧ bind_mode ≠ "lan" then
    .invalid "ERROR: Invalid bind_mode. Must be loopback or lan"
  else if port < 1 ∨ port > 65535 then
    .invalid "ERROR: Invalid port. Must be between 1 and 65535"
  else
    match rootFields cfg0 with
    | none => .typeError
    | some cfg =>
    match ensureObj cfg "gateway" with
    | none => .typeError
    | some (cfg, gw) =>
    match ensureObj gw "controlUi" with
    | none => .typeError
    | some (gw, cu) =>
    match ensureObj gw "http" with
    | none => .typeError
    | some (gw, http) =>
    match ensureObj http "endpoints" with
    | none => .typeError
    | some (http, ep) =>
    match ensureObj ep "chatCompletions" with
    | none => .typeError
    | some (ep, cc) =>
      let m := gwMerge mode bind_mode port enable_openai_api allow_insecure_auth
        cfg gw cu http ep cc
      .ok m.1 m.2

/-- The helper calls `write_config` exactly when the change list is
non-empty. -/
def gwWrites : GwResult → Bool
  | .ok _ changes => !changes.isEmpty
  | _ => false

/-- Whether the run was rejected by the argument validation. -/
def gwRejected : GwResult → Bool
  | .invalid _ => true
  | _ => false

/-! ### Memory settings (apply_memory_settings) -/

inductive MemResult where
  | typeError
  | ok (doc : JVal) (changes : List String)
deriving DecidableEq

/-- The `current_memory` value: `defaults.get("memorySearch", {})`, whose
keys the merger then iterates; a non-mapping there makes Python raise. -/
def msFields : Option JVal → Option (List (String × JVal))
  | none => some []
  | some (.obj fs) => some fs
  | some _ => none

/-- The fixed part of the desired `memorySearch` block, built from
`enable_memory` and `session_indexing` exactly as the source dict literal. -/
def msBase (enable_memory session_indexing : Bool) : List (String × JVal) :=
  [("enabled", .bool enable_memory),
   ("query", .obj
     [("maxResults", .num 6), ("minScore", .num 0.35),
      ("hybrid", .obj
        [("enabled", .bool true), ("vectorWeight", .num 0.7),
         ("textWeight", .num 0.3)])]),
   ("cache", .obj [("enabled", .bool true), ("maxEntries", .num 50000)]),
   ("sync", .obj
     [("onSessionStart", .bool true), ("onSearch", .bool true),
      ("watch", .bool true)]),
   ("sources", .arr
     (if session_indexing then [.str "memory", .str "sessions"] else [.str "memory"])),
   ("experimental", .obj [("sessionMemory", .bool session_indexing)])]

/-- The user-owned `memorySearch` keys the merger re-embeds unchanged. -/
def ownedKeys : List String := ["provider", "model", "remote", "fallback"]

/-- The full desired `memorySearch` block: the fixed part, then each
user-owned key copied from the current block when present (appended in loop
order, as Python dict assignment does for fresh keys). -/
def buildMS (enable_memory session_indexing : Bool)
    (cur : List (String × JVal)) : List (String × JVal) :=
  ownedKeys.foldl
    (fun acc k =>
      match dictGet cur k with
      | some v => dictSet acc k v
      | none => acc)
    (msBase enable_memory session_indexing)

def desiredCompaction : JVal :=
  .obj [("memoryFlush", .obj
    [("enabled", .bool true), ("softThresholdTokens", .num 40000)])]

def desiredMem0 (apiKey baseUrl userId : String) : JVal :=
  .obj [("enabled", .bool true),
        ("config", .obj
          [("apiKey", .str apiKey),
           ("baseUrl", .str (if baseUrl = "" then "https://api.mem0.ai" else baseUrl)),
           ("userId", .str (if userId = "" then "ha-user" else userId)),
           ("autoRecall", .bool true),
           ("autoCapture", .bool true),
           ("topK", .num 5)])]

def desiredCognee (apiKey baseUrl : String) : JVal :=
  .obj [("enabled", .bool true),
        ("config", .obj
          [("baseUrl", .str (if baseUrl = "" then "https://api.cognee.ai" else baseUrl)),
           ("apiKey", .str apiKey)])]

/-- One plugin section of `apply_memory_settings`: with a non-empty API key,
replace the entry by `desired` when it differs; with an empty key, set just
`enabled` to `False` in an existing entry unless it is already exactly
`False` (Python's `is not False`).  `none` models the `AttributeError`
raised by `.get` when an existing entry is not a mapping. -/
def pluginStep (id apiKey : String) (desired : JVal) (note disableNote : String)
    (entries : List (String × JVal)) (changes : List String) :
    Option (List (String × JVal) × List String) :=
  if apiKey ≠ "" then
    if dictGet entries id = some desired then some (entries, changes)
    else some (dictSet entries id desired, changes ++ [note])
  else
    match dictGet entries id with
    | none => some (entries, changes)
    | some (.obj entry) =>
      if dictGet entry "enabled" = some (.bool false) then some (entries, changes)
      else
        some (dictSet entries id (.obj (dictSet entry "enabled" (.bool false))),
          changes ++ [disableNote])
    | some _ => none

/-- The built-in memory-search / compaction merge of `apply_memory_settings`:
compare the fully-assembled desired `memorySearch` block and the fixed
desired `compaction` block against the current ones as whole values,
replacing each when unequal. -/
def memDefaultsDict (enable_memory session_indexing : Bool)
    (defaults curMS : List (String × JVal)) : List (String × JVal) :=
  let desiredMS := buildMS enable_memory session_indexing curMS
  let d1 :=
    if curMS = desiredMS then defaults
    else dictSet defaults "memorySearch" (.obj desiredMS)
  if (dictGet defaults "compaction").getD (.obj []) = desiredCompaction then d1
  else dictSet d1 "compaction" desiredCompaction

def memDefaultsChanges (enable_memory session_indexing : Bool)
    (defaults curMS : List (String × JVal)) : List String :=
  (if curMS = buildMS enable_memory session_indexing curMS then []
   else ["memorySearch"]) ++
  (if (dictGet defaults "compaction").getD (.obj []) = desiredCompaction then []
   else ["compaction"])

def memDefaults (enable_memory session_indexing : Bool)
    (defaults curMS : List (String × JVal)) : List (String × JVal) × List String :=
  (memDefaultsDict enable_memory session_indexing defaults curMS,
   memDefaultsChanges enable_memory session_indexing defaults curMS)

/-- The empty-container cleanup at the end of `apply_memory_settings`:
reinstall the processed entries, deleting `entries` when it ended up empty
and `plugins` when it then holds nothing. -/
def memCleanup (cfg plugins entries : List (String × JVal)) : List (String × JVal) :=
  let plugins :=
    if entries.isEmpty then dictDel plugins "entries"
    else dictSet plugins "entries" (.obj entries)
  if plugins.isEmpty then dictDel cfg "plugins" else dictSet cfg "plugins" (.obj plugins)

def apply_memory_settings (enable_memory session_indexing : Bool)
    (mem0_api_key mem0_base_url mem0_user_id cognee_api_key cognee_base_url : String)
    (cfg0 : Option JVal) : MemResult :=
  match rootFields cfg0 with
  | none => .typeError
  | some cfg =>
  match ensureObj cfg "agents" with
  | none => .typeError
  | some (cfg, agents) =>
  match ensureObj agents "defaults" with
  | none => .typeError
  | some (agents, defaults) =>
  match msFields (dictGet defaults "memorySearch") with
  | none => .typeError
  | some curMS =>
    let (defaults, chD) := memDefaults enable_memory session_indexing defaults curMS
    let agents := dictSet agents "defaults" (.obj defaults)
    let cfg := dictSet cfg "agents" (.obj agents)
    match ensureObj cfg "plugins" with
    | none => .typeError
    | some (cfg, plugins) =>
    match ensureObj plugins "entries" with
    | none => .typeError
    | some (plugins, entries) =>
    match pluginStep "openclaw-mem0" mem0_api_key
        (desiredMem0 mem0_api_key mem0_base_url mem0_user_id)
        "plugins.openclaw-mem0" "plugins.openclaw-mem0 disabled"
        entries chD with
    | none => .typeError
    | some (entries, ch) =>
    match pluginStep "memory-cognee" cognee_api_key
        (desiredCognee cognee_api_key cognee_base_url)
        "plugins.memory-cognee" "plugins.memory-cognee disabled"
        entries ch with
    | none => .typeError
    | some (entries, ch) =>
      .ok (.obj (memCleanup cfg plugins entries)) ch

def memWrites : MemResult → Bool
  | .ok _ changes => !changes.isEmpty
  | _ => false

/-! ### Document store and CLI (read_config, get, set, main) -/

/-- The state of the backing file: missing; present but either the OS read
fails (`IOError`) or the UTF-8 text is not valid JSON (`JSONDecodeError`) —
both caught and reported; present with bytes that are not valid UTF-8, where
`read_text` raises `UnicodeDecodeError` (a `ValueError` that the
`except (json.JSONDecodeError, IOError)` clause does not catch); or parsed
to a JSON value. -/
inductive FileState where
  | missing
  | unreadable
  | invalidUtf8
  | good (doc : JVal)
deriving DecidableEq

/-- `read_config`: `.ok none` for a missing file and (after printing an
error, not raising) for an unreadable or JSON-undecodable file; a raised
`UnicodeDecodeError` for a file whose bytes are not valid UTF-8, since that
exception escapes the `except (json.JSONDecodeError, IOError)` clause. -/
def read_config : FileState → Except String (Option JVal)
  | .missing => .ok none
  | .unreadable => .ok none
  | .invalidUtf8 => .error "UnicodeDecodeError"
  | .good j => .ok (some j)

/-- `read_config` prints an error message exactly when the read failure is
caught: the invalid-UTF-8 state raises before reaching the handler. -/
def readError : FileState → Bool
  | .unreadable => true
  | _ => false

/-- `get_gateway_setting(key)` with default `None`: `.error` models the
exceptions that propagate out — the read's `UnicodeDecodeError` and the
`AttributeError` Python raises when the document root or the `gateway`
value is not a mapping; `.ok v` is the returned value. -/
def get_gateway_setting (key : String) (fs : FileState) : Except String (Option JVal) :=
  match read_config fs with
  | .error e => .error e
  | .ok none => .ok none
  | .ok (some (.obj cfg)) =>
    match dictGet cfg "gateway" with
    | none => .ok none
    | some (.obj gw) => .ok (dictGet gw key)
    | some _ => .error "AttributeError"
  | .ok (some _) => .error "AttributeError"

inductive SetResult where
  | raised (exn : String)
  | done (doc : JVal)
deriving DecidableEq

/-- `set_gateway_setting(key, value)`: start from the read document (empty
when absent), ensure `gateway` exists, store the value, write back.  The
read's `UnicodeDecodeError` and the document-shape `TypeError` propagate as
`.raised`. -/
def set_gateway_setting (key : String) (value : JVal) (fs : FileState) : SetResult :=
  match read_config fs with
  | .error e => .raised e
  | .ok o =>
    match rootFields o with
    | none => .raised "TypeError"
    | some cfg =>
      match ensureObj cfg "gateway" with
      | none => .raised "TypeError"
      | some (cfg, gw) =>
        .done (.obj (dictSet cfg "gateway" (.obj (dictSet gw key value))))

/-- `apply_gateway_settings` as invoked on the file store: the argument
validation precedes the read, so an invalid-UTF-8 file only raises once the
arguments are valid; the read's `UnicodeDecodeError` propagates as
`.error`. -/
def apply_gateway_from_file (mode bind_mode : String) (port : Int)
    (enable_openai_api allow_insecure_auth : Bool) (fs : FileState) :
    Except String GwResult :=
  if mode ≠ "local" ∧ mode ≠ "remote" then
    .ok (.invalid "ERROR: Invalid mode. Must be local or remote")
  else if bind_mode ≠ "loopback" ∧ bind_mode ≠ "lan" then
    .ok (.invalid "ERROR: Invalid bind_mode. Must be loopback or lan")
  else if port < 1 ∨ port > 65535 then
    .ok (.invalid "ERROR: Invalid port. Must be between 1 and 65535")
  else
    match read_config fs with
    | .error e => .error e
    | .ok o =>
      .ok (apply_gateway_settings mode bind_mode port enable_openai_api
        allow_insecure_auth o)

/-- `apply_memory_settings` as invoked on the file store: the read is the
first step, so its `UnicodeDecodeError` propagates as `.error`. -/
def apply_memory_from_file (enable_memory session_indexing : Bool)
    (mem0_api_key mem0_base_url mem0_user_id cognee_api_key cognee_base_url : String)
    (fs : FileState) : Except String MemResult :=
  match read_config fs with
  | .error e => .error e
  | .ok o =>
    .ok (apply_memory_settings enable_memory session_indexing mem0_api_key
      mem0_base_url mem0_user_id cognee_api_key cognee_base_url o)

/-- Python's `int()` on a string (ASCII inputs): optional surrounding
whitespace, an optional sign, then decimal digits with single underscores
allowed between digits.  `none` models the raised `ValueError`. -/
def isPySpace (c : Char) : Bool :=
  c = ' ' ∨ c = '\t' ∨ c = '\n' ∨ c = '\r' ∨ c = '\x0b' ∨ c = '\x0c'

def digitsVal (acc : Nat) : List Char → Option Nat
  | [] => some acc
  | c :: cs =>
    if c.isDigit then digitsVal (acc * 10 + (c.toNat - 48)) cs
    else if c = '_' then
      match cs with
      | [] => none
      | d :: cs' =>
        if d.isDigit then digitsVal (acc * 10 + (d.toNat - 48)) cs' else none
    else none

def pyDigits : List Char → Option Nat
  | [] => none
  | c :: cs => if c.isDigit then digitsVal (c.toNat - 48) cs else none

def pyInt (s : String) : Option Int :=
  let cs := ((s.toList.dropWhile isPySpace).reverse.dropWhile isPySpace).reverse
  match cs with
  | '+' :: rest => (pyDigits rest).map (fun n => (n : Int))
  | '-' :: rest => (pyDigits rest).map (fun n => -(n : Int))
  | rest => (pyDigits rest).map (fun n => (n : Int))

/-- The `__EMPTY__` sentinel decode at the CLI boundary. -/
def decodeEmpty (v : String) : String := if v = "__EMPTY__" then "" else v

/-- What one CLI invocation does at the process boundary: exit with a code
(`printed` records whether any message was printed on the way), or let an
exception escape `main` uncaught.  Python raises `TypeError` or
`AttributeError` depending on the offending node; the model tags all
document-shape crashes inside the apply/set commands `"TypeError"` and the
one inside `get` `"AttributeError"`, the unguarded `int(sys.argv[4])`
crash `"ValueError"`, and the read of an invalid-UTF-8 file
`"UnicodeDecodeError"`. -/
inductive MainOutcome where
  | exit (code : Nat) (printed : Bool)
  | uncaught (exn : String)
deriving DecidableEq

def oc_main (argv : List String) (fs : FileState) (writeOk : Bool) : MainOutcome :=
  if argv.length < 2 then .exit 1 true
  else
    let cmd := (argv.get? 1).getD ""
    if cmd = "apply-gateway-settings" then
      if argv.length ≠ 7 then .exit 1 true
      else
        match pyInt ((argv.get? 4).getD "") with
        | none => .uncaught "ValueError"
        | some port =>
          match apply_gateway_from_file ((argv.get? 2).getD "") ((argv.get? 3).getD "")
              port (((argv.get? 5).getD "").toLower = "true")
              (((argv.get? 6).getD "").toLower = "true") fs with
          | .error exn => .uncaught exn
          | .ok (.invalid _) => .exit 1 true
          | .ok .typeError => .uncaught "TypeError"
          | .ok (.ok _ changes) =>
            if changes.isEmpty then .exit 0 true
            else if writeOk then .exit 0 true else .exit 1 true
    else if cmd = "apply-memory-settings" then
      if argv.length ≠ 9 then .exit 1 true
      else
        match apply_memory_from_file (((argv.get? 2).getD "").toLower = "true")
            (((argv.get? 3).getD "").toLower = "true")
            (decodeEmpty ((argv.get? 4).getD "")) (decodeEmpty ((argv.get? 5).getD ""))
            (decodeEmpty ((argv.get? 6).getD "")) (decodeEmpty ((argv.get? 7).getD ""))
            (decodeEmpty ((argv.get? 8).getD "")) fs with
        | .error exn => .uncaught exn
        | .ok .typeError => .uncaught "TypeError"
        | .ok (.ok _ changes) =>
          if changes.isEmpty then .exit 0 true
          else if writeOk then .exit 0 true else .exit 1 true
    else if cmd = "get" then
      if argv.length ≠ 3 then .exit 1 true
      else
        match get_gateway_setting ((argv.get? 2).getD "") fs with
        | .error exn => .uncaught exn
        | .ok v => .exit 0 (v.isSome || readError fs)
    else if cmd = "set" then
      if argv.length ≠ 4 then .exit 1 true
      else
        let raw := (argv.get? 3).getD ""
        let value : JVal := match pyInt raw with | some n => .num n | none => .str raw
        match set_gateway_setting ((argv.get? 2).getD "") value fs with
        | .raised exn => .uncaught exn
        | .done _ => if writeOk then .exit 0 (readError fs) else .exit 1 true
    else .exit 1 true

/-- The resulting document of a successful gateway run (`.null` otherwise). -/
def gwOkDoc : GwResult → JVal
  | .ok d _ => d
  | _ => .null

/-- The change notes of a successful gateway run. -/
def gwOkCh : GwResult → List Note
  | .ok _ ch => ch
  | _ => []

/-- The resulting document of a successful memory run (`.null` otherwise). -/
def memOkDoc : MemResult → JVal
  | .ok d _ => d
  | _ => .null

/-- The change notes of a successful memory run. -/
def memOkCh : MemResult → List String
  | .ok _ ch => ch
  | _ => []

/-! ### Generic lemmas about the dict primitives -/

theorem dictGet_dictSet_self (d : List (String × JVal)) (k : String) (v : JVal) :
    dictGet (dictSet d k v) k = some v := by
  induction d with
  | nil => simp [dictGet, dictSet]
  | cons kv rest ih =>
    obtain ⟨a, w⟩ := kv
    by_cases ha : a = k <;> simp [dictGet, dictSet, ha, ih]

theorem dictGet_dictSet_ne (d : List (String × JVal)) {k k' : String} (v : JVal)
    (h : k' ≠ k) : dictGet (dictSet d k v) k' = dictGet d k' := by
  induction d with
  | nil => simp [dictGet, dictSet, Ne.symm h]
  | cons kv rest ih =>
    obtain ⟨a, w⟩ := kv
    by_cases ha : a = k
    · subst ha; simp [dictGet, dictSet, Ne.symm h]
    · by_cases ha' : a = k' <;> simp [dictGet, dictSet, ha, ha', h, ih]

theorem dictSet_get_self (d : List (String × JVal)) {k : String} {v : JVal}
    (h : dictGet d k = some v) : dictSet d k v = d := by
  induction d with
  | nil => simp [dictGet] at h
  | cons kv rest ih =>
    obtain ⟨a, w⟩ := kv
    by_cases ha : a = k
    · subst ha
      simp [dictGet] at h
      simp [dictSet, h]
    · simp [dictGet, ha] at h
      simp [dictSet, ha, ih h]

theorem dictGet_dictDel_ne (d : List (String × JVal)) {k k' : String}
    (h : k' ≠ k) : dictGet (dictDel d k) k' = dictGet d k' := by
  induction d with
  | nil => simp [dictDel]
  | cons kv rest ih =>
    obtain ⟨a, w⟩ := kv
    by_cases ha : a = k
    · subst ha
      simp only [dictDel, if_pos rfl, dictGet, if_neg (Ne.symm h)]
      exact ih
    · by_cases ha' : a = k' <;> simp [dictGet, dictDel, ha, ha', h, ih]

theorem dictGet_dictDel_self (d : List (String × JVal)) (k : String) :
    dictGet (dictDel d k) k = none := by
  induction d with
  | nil => rfl
  | cons kv rest ih =>
    obtain ⟨a, w⟩ := kv
    by_cases ha : a = k <;> simp [dictGet, dictDel, ha, ih]

theorem dictDel_dictSet_absent (d : List (String × JVal)) {k : String} (v : JVal)
    (h : dictGet d k = none) : dictDel (dictSet d k v) k = d := by
  induction d with
  | nil => simp [dictSet, dictDel]
  | cons kv rest ih =>
    obtain ⟨a, w⟩ := kv
    by_cases ha : a = k
    · subst ha; simp [dictGet] at h
    · simp [dictGet, ha] at h
      simp [dictSet, dictDel, ha, ih h]

theorem dictSet_not_empty (d : List (String × JVal)) (k : String) (v : JVal) :
    (dictSet d k v).isEmpty = false := by
  cases d with
  | nil => simp [dictSet]
  | cons kv rest =>
    obtain ⟨a, w⟩ := kv
    by_cases ha : a = k <;> simp [dictSet, ha]

theorem dictGet_of_isEmpty (d : List (String × JVal)) (k : String)
    (h : d.isEmpty = true) : dictGet d k = none := by
  cases d with
  | nil => rfl
  | cons kv rest => simp at h

/-- The two branches `ensureObj` can succeed through. -/
theorem ensureObj_cases {d d' fs : List (String × JVal)} {k : String}
    (h : ensureObj d k = some (d', fs)) :
    (dictGet d k = some (.obj fs) ∧ d' = d) ∨
      (dictGet d k = none ∧ d' = dictSet d k (.obj []) ∧ fs = []) := by
  unfold ensureObj at h
  cases hg : dictGet d k with
  | none =>
    rw [hg] at h
    simp only [Option.some.injEq, Prod.mk.injEq] at h
    exact Or.inr ⟨rfl, h.1.symm, h.2.symm⟩
  | some v =>
    rw [hg] at h
    cases v with
    | obj fs' =>
      simp only [Option.some.injEq, Prod.mk.injEq] at h
      exact Or.inl ⟨by rw [h.2], h.1.symm⟩
    | null => exact Option.noConfusion h
    | bool b => exact Option.noConfusion h
    | num q => exact Option.noConfusion h
    | str s => exact Option.noConfusion h
    | arr es => exact Option.noConfusion h

theorem ensureObj_get_self {d d' fs : List (String × JVal)} {k : String}
    (h : ensureObj d k = some (d', fs)) : dictGet d' k = some (.obj fs) := by
  rcases ensureObj_cases h with ⟨hg, rfl⟩ | ⟨hg, rfl, rfl⟩
  · exact hg
  · exact dictGet_dictSet_self ..

theorem ensureObj_get_ne {d d' fs : List (String × JVal)} {k k' : String}
    (h : ensureObj d k = some (d', fs)) (hne : k' ≠ k) :
    dictGet d' k' = dictGet d k' := by
  rcases ensureObj_cases h with ⟨_, rfl⟩ | ⟨_, rfl, _⟩
  · rfl
  · exact dictGet_dictSet_ne _ _ hne

/-- A successful `ensureObj` on a dict that already holds an object is the
identity. -/
theorem ensureObj_of_get_obj {d fs : List (String × JVal)} {k : String}
    (h : dictGet d k = some (.obj fs)) : ensureObj d k = some (d, fs) := by
  unfold ensureObj
  rw [h]

/-! ### Generic lemmas about updateField -/

theorem updateField_get_ne (fs : List (String × JVal)) (key : String)
    (dflt desired : JVal) (n : String) {k' : String} (h : k' ≠ key) :
    dictGet (updateField fs key dflt desired n).1 k' = dictGet fs k' := by
  unfold updateField
  split
  · rfl
  · exact dictGet_dictSet_ne _ _ h

/-- After `updateField`, the field (with its default for absence) holds the
desired value. -/
theorem updateField_get_self (fs : List (String × JVal)) (key : String)
    (dflt desired : JVal) (n : String) :
    (dictGet (updateField fs key dflt desired n).1 key).getD dflt = desired := by
  unfold updateField
  split
  · assumption
  · rw [dictGet_dictSet_self]; rfl

/-- `updateField` on an already-settled field does nothing. -/
theorem updateField_settled {fs : List (String × JVal)} {key : String}
    {dflt desired : JVal} (n : String)
    (h : (dictGet fs key).getD dflt = desired) :
    updateField fs key dflt desired n = (fs, []) := by
  unfold updateField
  rw [if_pos h]

theorem updateField_changes (fs : List (String × JVal)) (key : String)
    (dflt desired : JVal) (n : String) :
    (updateField fs key dflt desired n).2 =
      if (dictGet fs key).getD dflt = desired then []
      else [⟨n, (dictGet fs key).getD dflt, desired⟩] := by
  unfold updateField
  split <;> simp_all

/-! ### Generic lemmas about paths -/

theorem getPath_obj_cons (fs : List (String × JVal)) (k : String) (p : List String) :
    getPath (.obj fs) (k :: p) = getPathO (dictGet fs k) p := by
  cases h : dictGet fs k <;> simp [getPath, getPathO, h]

theorem pathLE_cons_same (k : String) (a b : List String) :
    pathLE (k :: a) (k :: b) = pathLE a b := by
  simp [pathLE]

theorem outside_map_cons (M : List (List String)) (k : String) (p : List String) :
    outside (M.map (k :: ·)) (k :: p) = outside M p := by
  induction M with
  | nil => rfl
  | cons m M ih =>
    simp only [List.map_cons, outside, List.all_cons] at ih ⊢
    rw [pathLE_cons_same, pathLE_cons_same, ih]

theorem outside_nil_of_mem {M : List (List String)} {m : List String}
    (hm : m ∈ M) : outside M [] = false := by
  simp only [outside]
  rw [List.all_eq_false]
  exact ⟨m, hm, by simp [pathLE]⟩

/-- Replacing the child at `k` by a value whose lookups agree, outside `M`,
with the old child preserves every path outside `M` pushed under `k`. -/
theorem preserve_setKey {fs : List (String × JVal)} {k : String} {v' : JVal}
    {M : List (List String)} (hM : M ≠ [])
    (hch : ∀ q, outside M q = true → getPath v' q = getPathO (dictGet fs k) q) :
    ∀ p, outside (M.map (k :: ·)) p = true →
      getPath (.obj (dictSet fs k v')) p = getPath (.obj fs) p := by
  intro p hp
  cases p with
  | nil =>
    obtain ⟨m, hm⟩ := List.exists_mem_of_ne_nil M hM
    rw [outside_nil_of_mem (List.mem_map_of_mem (k :: ·) hm)] at hp
    exact absurd hp (by simp)
  | cons k' p' =>
    by_cases hk : k' = k
    · subst hk
      rw [outside_map_cons] at hp
      rw [getPath_obj_cons, getPath_obj_cons, dictGet_dictSet_self]
      exact hch p' hp
    · rw [getPath_obj_cons, getPath_obj_cons, dictGet_dictSet_ne _ _ hk]

/-! ### Inversion of successful runs -/

/-- Anatomy of a successful `apply_gateway_settings` run: the validated
arguments, the ensure chain, and the final merge. -/
theorem gw_ok_elim {mode bind_mode : String} {port : Int} {eoa aia : Bool}
    {cfg0 : Option JVal} {doc : JVal} {ch : List Note}
    (h : apply_gateway_settings mode bind_mode port eoa aia cfg0 = .ok doc ch) :
    ∃ cfgA cfgB gw0 gw1 cu0 gw2 http0 http1 ep0 ep1 cc0,
      (mode = "local" ∨ mode = "remote") ∧
      (bind_mode = "loopback" ∨ bind_mode = "lan") ∧
      (1 ≤ port ∧ port ≤ 65535) ∧
      rootFields cfg0 = some cfgA ∧
      ensureObj cfgA "gateway" = some (cfgB, gw0) ∧
      ensureObj gw0 "controlUi" = some (gw1, cu0) ∧
      ensureObj gw1 "http" = some (gw2, http0) ∧
      ensureObj http0 "endpoints" = some (http1, ep0) ∧
      ensureObj ep0 "chatCompletions" = some (ep1, cc0) ∧
      doc = (gwMerge mode bind_mode port eoa aia cfgB gw2 cu0 http1 ep1 cc0).1 ∧
      ch = (gwMerge mode bind_mode port eoa aia cfgB gw2 cu0 http1 ep1 cc0).2 := by
  unfold apply_gateway_settings at h
  split at h
  · exact absurd h (by simp)
  split at h
  · exact absurd h (by simp)
  split at h
  · exact absurd h (by simp)
  next hmode hbind hport =>
  push_neg at hmode hbind hport
  split at h
  · exact absurd h (by simp)
  next cfgA hA =>
  split at h
  · exact absurd h (by simp)
  next cfgB gw0 hB =>
  split at h
  · exact absurd h (by simp)
  next gw1 cu0 hC =>
  split at h
  · exact absurd h (by simp)
  next gw2 http0 hD =>
  split at h
  · exact absurd h (by simp)
  next http1 ep0 hE =>
  split at h
  · exact absurd h (by simp)
  next ep1 cc0 hF =>
  simp only [GwResult.ok.injEq] at h
  refine ⟨cfgA, cfgB, gw0, gw1, cu0, gw2, http0, http1, ep0, ep1, cc0,
    ?_, ?_, ?_, hA, hB, hC, hD, hE, hF, h.1.symm, h.2.symm⟩
  · rcases Decidable.em (mode = "local") with hm | hm
    · exact Or.inl hm
    · exact Or.inr (hmode hm)
  · rcases Decidable.em (bind_mode = "loopback") with hm | hm
    · exact Or.inl hm
    · exact Or.inr (hbind hm)
  · omega

/-- Anatomy of a successful `apply_memory_settings` run. -/
theorem mem_ok_elim {em si : Bool} {m0k m0b m0u cgk cgb : String}
    {cfg0 : Option JVal} {doc : JVal} {ch : List String}
    (h : apply_memory_settings em si m0k m0b m0u cgk cgb cfg0 = .ok doc ch) :
    ∃ cfgA cfgB agents0 agents1 defaults0 curMS defaults1 chD cfgC plugins0
      plugins1 entries0 entries1 chA entries2,
      rootFields cfg0 = some cfgA ∧
      ensureObj cfgA "agents" = some (cfgB, agents0) ∧
      ensureObj agents0 "defaults" = some (agents1, defaults0) ∧
      msFields (dictGet defaults0 "memorySearch") = some curMS ∧
      memDefaults em si defaults0 curMS = (defaults1, chD) ∧
      ensureObj (dictSet cfgB "agents"
        (.obj (dictSet agents1 "defaults" (.obj defaults1)))) "plugins"
        = some (cfgC, plugins0) ∧
      ensureObj plugins0 "entries" = some (plugins1, entries0) ∧
      pluginStep "openclaw-mem0" m0k (desiredMem0 m0k m0b m0u)
        "plugins.openclaw-mem0" "plugins.openclaw-mem0 disabled" entries0 chD
        = some (entries1, chA) ∧
      pluginStep "memory-cognee" cgk (desiredCognee cgk cgb)
        "plugins.memory-cognee" "plugins.memory-cognee disabled" entries1 chA
        = some (entries2, ch) ∧
      doc = .obj (memCleanup cfgC plugins1 entries2) := by
  unfold apply_memory_settings at h
  split at h
  · exact absurd h (by simp)
  next cfgA hA =>
  split at h
  · exact absurd h (by simp)
  next cfgB agents0 hB =>
  split at h
  · exact absurd h (by simp)
  next agents1 defaults0 hC =>
  split at h
  · exact absurd h (by simp)
  next curMS hD =>
  split at h
  next defaults1 chD hE =>
  simp only [] at h
  split at h
  · exact absurd h (by simp)
  next cfgC plugins0 hF =>
  split at h
  · exact absurd h (by simp)
  next plugins1 entries0 hG =>
  split at h
  · exact absurd h (by simp)
  next entries1 chA hH =>
  split at h
  · exact absurd h (by simp)
  next entries2 chB hI =>
  simp only [MemResult.ok.injEq] at h
  exact ⟨cfgA, cfgB, agents0, agents1, defaults0, curMS, defaults1, chD, cfgC,
    plugins0, plugins1, entries0, entries1, chA, entries2,
    hA, hB, hC, hD, hE, hF, hG, hH, h.2 ▸ hI, h.1.symm⟩

example :
    apply_gateway_settings "local" "loopback" 9999 true true (some (.obj [])) =
      .ok (.obj [("gateway", .obj
        [("controlUi", .obj [("allowInsecureAuth", .bool true)]),
         ("http", .obj [("endpoints", .obj
           [("chatCompletions", .obj [("enabled", .bool true)])])]),
         ("mode", .str "local"), ("bind", .str "loopback"), ("port", .num 9999)])])
      [⟨"mode", .str "", .str "local"⟩, ⟨"bind", .str "", .str "loopback"⟩,
       ⟨"port", .num 18789, .num 9999⟩,
       ⟨"chatCompletions.enabled", .bool false, .bool true⟩,
       ⟨"allowInsecureAuth", .bool false, .bool true⟩] := by rfl

/-! ### Helper lemmas about the memory merge pieces -/

theorem dictSet_ne_nil (d : List (String × JVal)) (k : String) (v : JVal) :
    dictSet d k v ≠ [] := by
  cases d with
  | nil => simp [dictSet]
  | cons kv rest =>
    obtain ⟨a, w⟩ := kv
    by_cases ha : a = k <;> simp [dictSet, ha]

theorem msFields_cases {o : Option JVal} {curMS : List (String × JVal)}
    (h : msFields o = some curMS) :
    o = some (.obj curMS) ∨ (o = none ∧ curMS = []) := by
  cases o with
  | none =>
    simp only [msFields, Option.some.injEq] at h
    exact Or.inr ⟨rfl, h.symm⟩
  | some v =>
    cases v with
    | obj fs =>
      simp only [msFields, Option.some.injEq] at h
      exact Or.inl (by rw [h])
    | null => exact Option.noConfusion h
    | bool b => exact Option.noConfusion h
    | num q => exact Option.noConfusion h
    | str s => exact Option.noConfusion h
    | arr es => exact Option.noConfusion h

theorem buildMS_ne_nil (em si : Bool) (cur : List (String × JVal)) :
    buildMS em si cur ≠ [] := by
  unfold buildMS ownedKeys
  simp only [List.foldl_cons, List.foldl_nil]
  cases dictGet cur "provider" <;> cases dictGet cur "model" <;>
    cases dictGet cur "remote" <;> cases dictGet cur "fallback" <;>
    simp [msBase, dictSet_ne_nil]

/-- Keys other than the four user-owned ones read straight from the fixed
base of the desired `memorySearch` block. -/
theorem buildMS_get_unowned (em si : Bool) (cur : List (String × JVal)) {k : String}
    (h1 : k ≠ "provider") (h2 : k ≠ "model") (h3 : k ≠ "remote")
    (h4 : k ≠ "fallback") :
    dictGet (buildMS em si cur) k = dictGet (msBase em si) k := by
  unfold buildMS ownedKeys
  simp only [List.foldl_cons, List.foldl_nil]
  cases dictGet cur "provider" <;> cases dictGet cur "model" <;>
    cases dictGet cur "remote" <;> cases dictGet cur "fallback" <;>
    simp [dictGet_dictSet_ne _ _ h1, dictGet_dictSet_ne _ _ h2,
      dictGet_dictSet_ne _ _ h3, dictGet_dictSet_ne _ _ h4]

/-- The four user-owned keys of the desired `memorySearch` block hold
exactly their current values. -/
theorem buildMS_get_owned (em si : Bool) (cur : List (String × JVal)) {k : String}
    (hk : k ∈ ownedKeys) : dictGet (buildMS em si cur) k = dictGet cur k := by
  have hbase : dictGet (msBase em si) k = none := by
    simp only [ownedKeys, List.mem_cons, List.not_mem_nil, or_false] at hk
    rcases hk with rfl | rfl | rfl | rfl <;> simp [msBase, dictGet]
  unfold buildMS ownedKeys
  simp only [List.foldl_cons, List.foldl_nil]
  simp only [ownedKeys, List.mem_cons, List.not_mem_nil, or_false] at hk
  rcases hk with rfl | rfl | rfl | rfl <;>
    cases hp : dictGet cur "provider" <;> cases hm : dictGet cur "model" <;>
    cases hr : dictGet cur "remote" <;> cases hf : dictGet cur "fallback" <;>
    simp [dictGet_dictSet_self, dictGet_dictSet_ne, hbase, hp, hm, hr, hf]

theorem memCleanup_get_ne (cfg plugins entries : List (String × JVal)) {k : String}
    (h : k ≠ "plugins") :
    dictGet (memCleanup cfg plugins entries) k = dictGet cfg k := by
  unfold memCleanup
  simp only []
  split <;> split <;>
    first
    | exact dictGet_dictDel_ne _ h
    | exact dictGet_dictSet_ne _ _ h

/-- After the defaults merge, `memorySearch` holds exactly the desired
block. -/
theorem memDefaults_get_ms {em si : Bool} {defaults0 curMS : List (String × JVal)}
    (hD : msFields (dictGet defaults0 "memorySearch") = some curMS) :
    dictGet (memDefaults em si defaults0 curMS).1 "memorySearch"
      = some (.obj (buildMS em si curMS)) := by
  have hsettled : curMS = buildMS em si curMS →
      dictGet defaults0 "memorySearch" = some (.obj (buildMS em si curMS)) := by
    intro heq
    rcases msFields_cases hD with hc | ⟨_, hnil⟩
    · rw [← heq]; exact hc
    · subst hnil
      exact absurd heq.symm (buildMS_ne_nil em si [])
  unfold memDefaults memDefaultsDict
  simp only []
  by_cases h1 : curMS = buildMS em si curMS
  · by_cases h2 : (dictGet defaults0 "compaction").getD (.obj []) = desiredCompaction
    · rw [if_pos h1, if_pos h2]
      exact hsettled h1
    · rw [if_pos h1, if_neg h2,
        dictGet_dictSet_ne _ _ (by decide : ("memorySearch" : String) ≠ "compaction")]
      exact hsettled h1
  · by_cases h2 : (dictGet defaults0 "compaction").getD (.obj []) = desiredCompaction
    · rw [if_neg h1, if_pos h2]
      exact dictGet_dictSet_self ..
    · rw [if_neg h1, if_neg h2,
        dictGet_dictSet_ne _ _ (by decide : ("memorySearch" : String) ≠ "compaction")]
      exact dictGet_dictSet_self ..

theorem memDefaults_get_other {em si : Bool} (defaults0 curMS : List (String × JVal))
    {k : String} (h1 : k ≠ "memorySearch") (h2 : k ≠ "compaction") :
    dictGet (memDefaults em si defaults0 curMS).1 k = dictGet defaults0 k := by
  unfold memDefaults memDefaultsDict
  simp only []
  by_cases hc1 : curMS = buildMS em si curMS
  · by_cases hc2 : (dictGet defaults0 "compaction").getD (.obj []) = desiredCompaction
    · rw [if_pos hc1, if_pos hc2]
    · rw [if_pos hc1, if_neg hc2, dictGet_dictSet_ne _ _ h2]
  · by_cases hc2 : (dictGet defaults0 "compaction").getD (.obj []) = desiredCompaction
    · rw [if_neg hc1, if_pos hc2, dictGet_dictSet_ne _ _ h1]
    · rw [if_neg hc1, if_neg hc2, dictGet_dictSet_ne _ _ h2, dictGet_dictSet_ne _ _ h1]

/-- With valid arguments the validation gate is passed: whatever the
document, the result is never an `invalid`. -/
theorem gwRejected_of_valid {mode bind_mode : String} {port : Int}
    (h1 : ¬(mode ≠ "local" ∧ mode ≠ "remote"))
    (h2 : ¬(bind_mode ≠ "loopback" ∧ bind_mode ≠ "lan"))
    (h3 : ¬(port < 1 ∨ port > 65535)) (eoa aia : Bool) (cfg0 : Option JVal) :
    gwRejected (apply_gateway_settings mode bind_mode port eoa aia cfg0) = false := by
  unfold apply_gateway_settings
  rw [if_neg h1, if_neg h2, if_neg h3]
  split
  · rfl
  split
  · rfl
  split
  · rfl
  split
  · rfl
  split
  · rfl
  split
  · rfl
  rfl

/-- C3: `apply_gateway_settings` fails on any invalid `mode`, `bind_mode` or
out-of-range `port`, leaving the document and the file untouched — the
result does not depend on the document at all (validation precedes the
read), and no write happens; at the boundaries, ports 1 and 65535 pass
validation while 0 and 65536 are rejected. -/
theorem C3_gateway_validation (mode bind_mode : String) (port : Int)
    (eoa aia : Bool) :
    ((¬(mode = "local" ∨ mode = "remote") ∨
      ¬(bind_mode = "loopback" ∨ bind_mode = "lan") ∨
      port < 1 ∨ port > 65535) →
      ∀ cfg0 cfg0' : Option JVal,
        gwRejected (apply_gateway_settings mode bind_mode port eoa aia cfg0) = true ∧
        apply_gateway_settings mode bind_mode port eoa aia cfg0 =
          apply_gateway_settings mode bind_mode port eoa aia cfg0' ∧
        gwWrites (apply_gateway_settings mode bind_mode port eoa aia cfg0) = false) ∧
    ((mode = "local" ∨ mode = "remote") →
      (bind_mode = "loopback" ∨ bind_mode = "lan") →
      ∀ cfg0 : Option JVal,
        gwRejected (apply_gateway_settings mode bind_mode 1 eoa aia cfg0) = false ∧
        gwRejected (apply_gateway_settings mode bind_mode 65535 eoa aia cfg0) = false ∧
        gwRejected (apply_gateway_settings mode bind_mode 0 eoa aia cfg0) = true ∧
        gwRejected (apply_gateway_settings mode bind_mode 65536 eoa aia cfg0) = true) := by
  constructor
  · intro hbad cfg0 cfg0'
    have hres : ∃ s, ∀ c : Option JVal,
        apply_gateway_settings mode bind_mode port eoa aia c = .invalid s := by
      by_cases hm : mode ≠ "local" ∧ mode ≠ "remote"
      · refine ⟨"ERROR: Invalid mode. Must be local or remote", fun c => ?_⟩
        unfold apply_gateway_settings
        rw [if_pos hm]
      · by_cases hb : bind_mode ≠ "loopback" ∧ bind_mode ≠ "lan"
        · refine ⟨"ERROR: Invalid bind_mode. Must be loopback or lan", fun c => ?_⟩
          unfold apply_gateway_settings
          rw [if_neg hm, if_pos hb]
        · have hp : port < 1 ∨ port > 65535 := by tauto
          refine ⟨"ERROR: Invalid port. Must be between 1 and 65535", fun c => ?_⟩
          unfold apply_gateway_settings
          rw [if_neg hm, if_neg hb, if_pos hp]
    obtain ⟨s, hres⟩ := hres
    refine ⟨by rw [hres cfg0]; rfl, (hres cfg0).trans (hres cfg0').symm,
      by rw [hres cfg0]; rfl⟩
  · intro hm hb cfg0
    have hm' : ¬(mode ≠ "local" ∧ mode ≠ "remote") := by tauto
    have hb' : ¬(bind_mode ≠ "loopback" ∧ bind_mode ≠ "lan") := by tauto
    refine ⟨gwRejected_of_valid hm' hb' (by omega) eoa aia cfg0,
      gwRejected_of_valid hm' hb' (by omega) eoa aia cfg0, ?_, ?_⟩
    · unfold apply_gateway_settings
      rw [if_neg hm', if_neg hb', if_pos (by omega : (0 : Int) < 1 ∨ (0 : Int) > 65535)]
      rfl
    · unfold apply_gateway_settings
      rw [if_neg hm', if_neg hb',
        if_pos (by omega : (65536 : Int) < 1 ∨ (65536 : Int) > 65535)]
      rfl

theorem C3_gateway_validation_witness :
    (¬(("bogus" : String) = "local" ∨ ("bogus" : String) = "remote") ∨
      ¬(("loopback" : String) = "loopback" ∨ ("loopback" : String) = "lan") ∨
      (18789 : Int) < 1 ∨ (18789 : Int) > 65535) ∧
    gwRejected (apply_gateway_settings "bogus" "loopback" 18789 false false
      (some (.obj [("keep", .num 1)]))) = true ∧
    gwWrites (apply_gateway_settings "bogus" "loopback" 18789 false false
      (some (.obj [("keep", .num 1)]))) = false ∧
    gwRejected (apply_gateway_settings "local" "loopback" 1 false false none) = false ∧
    gwRejected (apply_gateway_settings "local" "loopback" 65536 false false none) = true := by
  have hbad : ¬(("bogus" : String) = "local" ∨ ("bogus" : String) = "remote") ∨
      ¬(("loopback" : String) = "loopback" ∨ ("loopback" : String) = "lan") ∨
      (18789 : Int) < 1 ∨ (18789 : Int) > 65535 := by
    left; decide
  have h1 := (C3_gateway_validation "bogus" "loopback" 18789 false false).1 hbad
    (some (.obj [("keep", .num 1)])) none
  have h2 := (C3_gateway_validation "local" "loopback" 18789 false false).2
    (Or.inl rfl) (Or.inl rfl) none
  exact ⟨hbad, (h1).1, (h1).2.2, h2.1, h2.2.2.2⟩

/-- C8 counterexample: a file whose bytes are not valid UTF-8 refutes the
claim that the loader always reports and returns the absent value when the
file exists but cannot be read or parsed — `read_text` raises
`UnicodeDecodeError`, which `except (json.JSONDecodeError, IOError)` does
not catch, so the load raises instead of returning, and the exception
escapes `main` uncaught for every command that reaches the read. -/
theorem C8_counterexample :
    read_config .invalidUtf8 = .error "UnicodeDecodeError" ∧
    readError .invalidUtf8 = false ∧
    oc_main ["oc_config_helper.py", "get", "mode"] .invalidUtf8 true
      = .uncaught "UnicodeDecodeError" ∧
    oc_main ["oc_config_helper.py", "apply-gateway-settings", "local", "loopback",
        "18789", "true", "false"] .invalidUtf8 true
      = .uncaught "UnicodeDecodeError" ∧
    oc_main ["oc_config_helper.py", "apply-memory-settings", "true", "false",
        "__EMPTY__", "__EMPTY__", "__EMPTY__", "__EMPTY__", "__EMPTY__"]
      .invalidUtf8 true = .uncaught "UnicodeDecodeError" ∧
    oc_main ["oc_config_helper.py", "set", "mode", "local"] .invalidUtf8 true
      = .uncaught "UnicodeDecodeError" :=
  ⟨rfl, rfl, rfl, rfl, rfl, rfl⟩

/-- C8 amended: for a missing file, and for a file whose read failure the
`except (json.JSONDecodeError, IOError)` clause catches (an OS read error
or UTF-8 text that is not valid JSON), the loader returns the absent value
— reporting, not raising, in the latter case — and both apply operations
treat that absent result exactly like an empty document; but a file whose
bytes are not valid UTF-8 makes the loader raise `UnicodeDecodeError`
instead of returning. -/
theorem C8_amended :
    read_config .missing = .ok none ∧
    read_config .unreadable = .ok none ∧
    readError .unreadable = true ∧
    readError .missing = false ∧
    read_config .invalidUtf8 = .error "UnicodeDecodeError" ∧
    (∀ (mode bind_mode : String) (port : Int) (eoa aia : Bool),
      apply_gateway_settings mode bind_mode port eoa aia none =
        apply_gateway_settings mode bind_mode port eoa aia (some (.obj []))) ∧
    (∀ (em si : Bool) (a b c d e : String),
      apply_memory_settings em si a b c d e none =
        apply_memory_settings em si a b c d e (some (.obj []))) := by
  refine ⟨rfl, rfl, rfl, rfl, rfl, ?_, ?_⟩ <;> (intros; rfl)

/-- C10: a `set` against a missing or undecodable file starts from the empty
mapping and stores exactly `{"gateway": {key: value}}`, replacing whatever
was on disk. -/
theorem C10_set_from_scratch (key : String) (value : JVal) :
    set_gateway_setting key value .missing =
      .done (.obj [("gateway", .obj [(key, value)])]) ∧
    set_gateway_setting key value .unreadable =
      .done (.obj [("gateway", .obj [(key, value)])]) := by
  exact ⟨rfl, rfl⟩

theorem getPathO_some (j : JVal) (p : List String) :
    getPathO (some j) p = getPath j p := rfl

theorem getPath_nil (j : JVal) : getPath j [] = some j := by cases j <;> rfl

theorem getPathO_none (p : List String) : getPathO none p = none := rfl

theorem getPath_append (j : JVal) (p q : List String) :
    getPath j (p ++ q) = getPathO (getPath j p) q := by
  induction p generalizing j with
  | nil => cases j <;> rfl
  | cons k p' ih =>
    cases j with
    | obj fs =>
      rw [List.cons_append, getPath_obj_cons, getPath_obj_cons]
      cases hg : dictGet fs k with
      | none => rfl
      | some v => exact ih v
    | null => rfl
    | bool b => rfl
    | num q' => rfl
    | str s => rfl
    | arr es => rfl

theorem getPathO_append (o : Option JVal) (p q : List String) :
    getPathO o (p ++ q) = getPathO (getPathO o p) q := by
  cases o with
  | none => rfl
  | some j => exact getPath_append j p q

theorem rootFields_cases {cfg0 : Option JVal} {fsA : List (String × JVal)}
    (h : rootFields cfg0 = some fsA) :
    cfg0 = some (.obj fsA) ∨ (cfg0 = none ∧ fsA = []) := by
  cases cfg0 with
  | none =>
    simp only [rootFields, Option.some.injEq] at h
    exact Or.inr ⟨rfl, h.symm⟩
  | some v =>
    cases v with
    | obj fs =>
      simp only [rootFields, Option.some.injEq] at h
      exact Or.inl (by rw [h])
    | null => exact Option.noConfusion h
    | bool b => exact Option.noConfusion h
    | num q => exact Option.noConfusion h
    | str s => exact Option.noConfusion h
    | arr es => exact Option.noConfusion h

/-- After a successful memory run, the document holds exactly the desired
`memorySearch` block built from the current one, and the current one is the
original block of the input document (empty when absent). -/
theorem mem_ok_ms_shape {em si : Bool} {m0k m0b m0u cgk cgb : String}
    {cfg0 : Option JVal} {doc : JVal} {ch : List String}
    (h : apply_memory_settings em si m0k m0b m0u cgk cgb cfg0 = .ok doc ch) :
    ∃ curMS : List (String × JVal),
      getPath doc ["agents", "defaults", "memorySearch"]
        = some (.obj (buildMS em si curMS)) ∧
      (getPathO cfg0 ["agents", "defaults", "memorySearch"] = some (.obj curMS) ∨
        (getPathO cfg0 ["agents", "defaults", "memorySearch"] = none ∧ curMS = [])) := by
  obtain ⟨cfgA, cfgB, agents0, agents1, defaults0, curMS, defaults1, chD, cfgC,
    plugins0, plugins1, entries0, entries1, chA, entries2,
    hA, hB, hC, hD, hE, hF, hG, hH, hI, hdoc⟩ := mem_ok_elim h
  refine ⟨curMS, ?_, ?_⟩
  · subst hdoc
    have hdef : defaults1 = (memDefaults em si defaults0 curMS).1 := by rw [hE]
    rw [getPath_obj_cons,
      memCleanup_get_ne _ _ _ (by decide : ("agents" : String) ≠ "plugins"),
      ensureObj_get_ne hF (by decide : ("agents" : String) ≠ "plugins"),
      dictGet_dictSet_self, getPathO_some, getPath_obj_cons, dictGet_dictSet_self,
      getPathO_some, getPath_obj_cons, hdef, memDefaults_get_ms hD]
    rfl
  · rcases rootFields_cases hA with hc0 | ⟨hc0, hnil⟩
    · subst hc0
      rw [getPathO_some, getPath_obj_cons]
      rcases ensureObj_cases hB with ⟨hag, _⟩ | ⟨hag, _, hag0⟩
      · rw [hag, getPathO_some, getPath_obj_cons]
        rcases ensureObj_cases hC with ⟨hdf, _⟩ | ⟨hdf, _, hdf0⟩
        · rw [hdf, getPathO_some, getPath_obj_cons]
          rcases msFields_cases hD with hms | ⟨hms, hnilMS⟩
          · rw [hms]; exact Or.inl rfl
          · rw [hms]; exact Or.inr ⟨rfl, hnilMS⟩
        · subst hdf0
          rw [hdf]
          rcases msFields_cases hD with hms | ⟨_, hnilMS⟩
          · rw [show dictGet ([] : List (String × JVal)) "memorySearch" = none from rfl]
              at hms
            exact Option.noConfusion hms
          · exact Or.inr ⟨rfl, hnilMS⟩
      · subst hag0
        rw [hag]
        rcases ensureObj_cases hC with ⟨hdf, _⟩ | ⟨hdf, _, hdf0⟩
        · rw [show dictGet ([] : List (String × JVal)) "defaults" = none from rfl] at hdf
          exact Option.noConfusion hdf
        · subst hdf0
          rcases msFields_cases hD with hms | ⟨_, hnilMS⟩
          · rw [show dictGet ([] : List (String × JVal)) "memorySearch" = none from rfl]
              at hms
            exact Option.noConfusion hms
          · exact Or.inr ⟨rfl, hnilMS⟩
    · subst hc0 hnil
      rcases ensureObj_cases hB with ⟨hag, _⟩ | ⟨hag, _, hag0⟩
      · rw [show dictGet ([] : List (String × JVal)) "agents" = none from rfl] at hag
        exact Option.noConfusion hag
      · subst hag0
        rcases ensureObj_cases hC with ⟨hdf, _⟩ | ⟨hdf, _, hdf0⟩
        · rw [show dictGet ([] : List (String × JVal)) "defaults" = none from rfl] at hdf
          exact Option.noConfusion hdf
        · subst hdf0
          rcases msFields_cases hD with hms | ⟨_, hnilMS⟩
          · rw [show dictGet ([] : List (String × JVal)) "memorySearch" = none from rfl]
              at hms
            exact Option.noConfusion hms
          · exact Or.inr ⟨rfl, hnilMS⟩

/-- C9: every successful `apply_memory_settings` run leaves
`agents.defaults.memorySearch.enabled` equal to the `enable_memory`
argument — a managed field of the block. -/
theorem C9_memorySearch_enabled (em si : Bool) (m0k m0b m0u cgk cgb : String)
    (cfg0 : Option JVal) (doc : JVal) (ch : List String)
    (h : apply_memory_settings em si m0k m0b m0u cgk cgb cfg0 = .ok doc ch) :
    getPath doc ["agents", "defaults", "memorySearch", "enabled"]
      = some (.bool em) := by
  obtain ⟨curMS, hpath, _⟩ := mem_ok_ms_shape h
  have happ := getPath_append doc ["agents", "defaults", "memorySearch"] ["enabled"]
  rw [hpath] at happ
  rw [show (["agents", "defaults", "memorySearch"] ++ ["enabled"] : List String)
    = ["agents", "defaults", "memorySearch", "enabled"] from rfl] at happ
  rw [happ, getPathO_some, getPath_obj_cons,
    buildMS_get_unowned em si curMS (by decide) (by decide) (by decide) (by decide)]
  rfl

theorem C9_memorySearch_enabled_witness :
    getPath (.obj [("agents", .obj [("defaults", .obj
        [("memorySearch", .obj (buildMS true true [])),
         ("compaction", desiredCompaction)])])])
      ["agents", "defaults", "memorySearch", "enabled"] = some (.bool true) :=
  C9_memorySearch_enabled true true "" "" "" "" "" none _
    ["memorySearch", "compaction"] rfl

/-- C5: the user-owned `memorySearch` fields `provider`, `model`, `remote`
and `fallback` present in the input document are re-embedded into the new
`memorySearch` block with their current values unchanged. -/
theorem C5_user_owned_preserved (em si : Bool) (m0k m0b m0u cgk cgb : String)
    (cfg0 : Option JVal) (doc : JVal) (ch : List String) (k : String) (v : JVal)
    (h : apply_memory_settings em si m0k m0b m0u cgk cgb cfg0 = .ok doc ch)
    (hk : k ∈ ownedKeys)
    (hv : getPathO cfg0 ["agents", "defaults", "memorySearch", k] = some v) :
    getPath doc ["agents", "defaults", "memorySearch", k] = some v := by
  obtain ⟨curMS, hpath, horig⟩ := mem_ok_ms_shape h
  have happ0 := getPathO_append cfg0 ["agents", "defaults", "memorySearch"] [k]
  rw [show (["agents", "defaults", "memorySearch"] ++ [k] : List String)
    = ["agents", "defaults", "memorySearch", k] from rfl] at happ0
  rw [happ0] at hv
  rcases horig with ho | ⟨ho, _⟩
  · rw [ho, getPathO_some, getPath_obj_cons] at hv
    have hcur : dictGet curMS k = some v := by
      cases hg : dictGet curMS k with
      | none => rw [hg] at hv; exact Option.noConfusion hv
      | some w => rw [hg, getPathO_some, getPath_nil] at hv; exact hv
    have happ := getPath_append doc ["agents", "defaults", "memorySearch"] [k]
    rw [show (["agents", "defaults", "memorySearch"] ++ [k] : List String)
      = ["agents", "defaults", "memorySearch", k] from rfl] at happ
    rw [happ, hpath, getPathO_some, getPath_obj_cons,
      buildMS_get_owned em si curMS hk, hcur, getPathO_some, getPath_nil]
  · rw [ho] at hv
    exact Option.noConfusion hv

theorem C5_user_owned_preserved_witness :
    getPath (.obj [("agents", .obj [("defaults", .obj
        [("memorySearch", .obj (buildMS true true [("provider", .str "openai")])),
         ("compaction", desiredCompaction)])])])
      ["agents", "defaults", "memorySearch", "provider"] = some (.str "openai") :=
  C5_user_owned_preserved true true "" "" "" "" ""
    (some (.obj [("agents", .obj [("defaults", .obj
      [("memorySearch", .obj [("provider", .str "openai")])])])]))
    _ ["memorySearch", "compaction"] "provider" (.str "openai")
    rfl (by decide) rfl

/-! ### Helper lemmas about the plugin sections -/

theorem dictGet_some_not_empty {d : List (String × JVal)} {k : String} {v : JVal}
    (h : dictGet d k = some v) : d.isEmpty = false := by
  cases d with
  | nil => exact Option.noConfusion h
  | cons kv rest => rfl

theorem pluginStep_get_ne {id key : String} {desired : JVal} {note dnote : String}
    {entries : List (String × JVal)} {changes : List String}
    {entries' : List (String × JVal)} {changes' : List String}
    (h : pluginStep id key desired note dnote entries changes = some (entries', changes'))
    {k : String} (hk : k ≠ id) : dictGet entries' k = dictGet entries k := by
  unfold pluginStep at h
  split at h
  · split at h <;>
      (simp only [Option.some.injEq, Prod.mk.injEq] at h;
       rw [← h.1])
    · exact dictGet_dictSet_ne _ _ hk
  · split at h
    · simp only [Option.some.injEq, Prod.mk.injEq] at h
      rw [← h.1]
    · split at h <;> simp only [Option.some.injEq, Prod.mk.injEq] at h <;> rw [← h.1]
      exact dictGet_dictSet_ne _ _ hk
    · exact Option.noConfusion h

/-- With a non-empty API key the processed entry is exactly the desired
one. -/
theorem pluginStep_get_self {id key : String} {desired : JVal} {note dnote : String}
    {entries : List (String × JVal)} {changes : List String}
    {entries' : List (String × JVal)} {changes' : List String}
    (h : pluginStep id key desired note dnote entries changes = some (entries', changes'))
    (hkey : key ≠ "") : dictGet entries' id = some desired := by
  unfold pluginStep at h
  rw [if_pos hkey] at h
  split at h <;> simp only [Option.some.injEq, Prod.mk.injEq] at h <;> rw [← h.1]
  · assumption
  · exact dictGet_dictSet_self ..

/-- With an empty API key the step disables an existing entry (unless its
`enabled` is already exactly `False`) and touches nothing else. -/
theorem pluginStep_empty_cases {id : String} {desired : JVal} {note dnote : String}
    {entries : List (String × JVal)} {changes : List String}
    {entries' : List (String × JVal)} {changes' : List String}
    (h : pluginStep id "" desired note dnote entries changes = some (entries', changes')) :
    (dictGet entries id = none ∧ entries' = entries) ∨
    (∃ entry, dictGet entries id = some (.obj entry) ∧
      ((dictGet entry "enabled" = some (.bool false) ∧ entries' = entries) ∨
       (dictGet entry "enabled" ≠ some (.bool false) ∧
        entries' = dictSet entries id (.obj (dictSet entry "enabled" (.bool false)))))) := by
  unfold pluginStep at h
  rw [if_neg (by simp : ¬("" : String) ≠ "")] at h
  split at h
  next hg =>
    simp only [Option.some.injEq, Prod.mk.injEq] at h
    exact Or.inl ⟨hg, h.1.symm⟩
  next entry hg =>
    split at h <;> simp only [Option.some.injEq, Prod.mk.injEq] at h
    · exact Or.inr ⟨entry, hg, Or.inl ⟨by assumption, h.1.symm⟩⟩
    · exact Or.inr ⟨entry, hg, Or.inr ⟨by assumption, h.1.symm⟩⟩
  next => exact Option.noConfusion h

/-- When the processed entries are non-empty the cleanup reinstalls them
verbatim under `plugins.entries`. -/
theorem memCleanup_entries {cfgC plugins1 entries2 : List (String × JVal)}
    (hne : entries2.isEmpty = false) :
    getPath (.obj (memCleanup cfgC plugins1 entries2)) ["plugins", "entries"]
      = some (.obj entries2) := by
  unfold memCleanup
  simp only []
  rw [show (if entries2.isEmpty = true then dictDel plugins1 "entries"
      else dictSet plugins1 "entries" (.obj entries2))
      = dictSet plugins1 "entries" (.obj entries2)
    from if_neg (by rw [hne]; exact Bool.false_ne_true)]
  rw [if_neg (by rw [dictSet_not_empty]; exact Bool.false_ne_true)]
  rw [getPath_obj_cons, dictGet_dictSet_self, getPathO_some, getPath_obj_cons,
    dictGet_dictSet_self]
  rfl

/-- Looking an entry up in the original document reaches the `entries0` dict
the plugin steps start from. -/
theorem entries0_of_orig {cfgA cfgB agents0 cfgC plugins0 plugins1 entries0 :
      List (String × JVal)} {X : JVal} {id : String} {w : JVal}
    (hB : ensureObj cfgA "agents" = some (cfgB, agents0))
    (hF : ensureObj (dictSet cfgB "agents" X) "plugins" = some (cfgC, plugins0))
    (hG : ensureObj plugins0 "entries" = some (plugins1, entries0))
    (horig : getPath (.obj cfgA) ["plugins", "entries", id] = some w) :
    dictGet entries0 id = some w := by
  have hpl2 : dictGet (dictSet cfgB "agents" X) "plugins" = dictGet cfgA "plugins" := by
    rw [dictGet_dictSet_ne _ _ (by decide : ("plugins" : String) ≠ "agents"),
      ensureObj_get_ne hB (by decide : ("plugins" : String) ≠ "agents")]
  rw [getPath_obj_cons] at horig
  cases hpl : dictGet cfgA "plugins" with
  | none => rw [hpl] at horig; exact Option.noConfusion horig
  | some v =>
    rw [hpl, getPathO_some] at horig
    cases v with
    | obj pl =>
      rcases ensureObj_cases hF with ⟨hex, _⟩ | ⟨hab, _, _⟩
      · rw [hpl2, hpl] at hex
        have hplpl : pl = plugins0 := by
          have := hex.symm
          simp only [Option.some.injEq, JVal.obj.injEq] at this
          exact this.symm
        subst hplpl
        rw [getPath_obj_cons] at horig
        cases hen : dictGet pl "entries" with
        | none => rw [hen] at horig; exact Option.noConfusion horig
        | some u =>
          rw [hen, getPathO_some] at horig
          cases u with
          | obj en =>
            rcases ensureObj_cases hG with ⟨hex2, _⟩ | ⟨hab2, _, _⟩
            · rw [hen] at hex2
              have henen : en = entries0 := by
                have := hex2.symm
                simp only [Option.some.injEq, JVal.obj.injEq] at this
                exact this.symm
              subst henen
              rw [getPath_obj_cons] at horig
              cases hid : dictGet en id with
              | none => rw [hid] at horig; exact Option.noConfusion horig
              | some z =>
                rw [hid, getPathO_some, getPath_nil] at horig
                exact horig
            · rw [hen] at hab2; exact Option.noConfusion hab2
          | null => exact Option.noConfusion horig
          | bool b => exact Option.noConfusion horig
          | num q => exact Option.noConfusion horig
          | str s => exact Option.noConfusion horig
          | arr es => exact Option.noConfusion horig
      · rw [hpl2, hpl] at hab; exact Option.noConfusion hab
    | null => exact Option.noConfusion horig
    | bool b => exact Option.noConfusion horig
    | num q => exact Option.noConfusion horig
    | str s => exact Option.noConfusion horig
    | arr es => exact Option.noConfusion horig

/-- When the original document has no `plugins` key and the run adds no
entry, the cleanup removes the scaffolding again. -/
theorem memCleanup_no_plugins {cfg2 cfgC plugins0 plugins1 entries0 :
      List (String × JVal)}
    (hnone : dictGet cfg2 "plugins" = none)
    (hF : ensureObj cfg2 "plugins" = some (cfgC, plugins0))
    (hG : ensureObj plugins0 "entries" = some (plugins1, entries0)) :
    memCleanup cfgC plugins1 [] = cfg2 ∧ entries0 = [] := by
  have hF' : ensureObj cfg2 "plugins" = some (dictSet cfg2 "plugins" (.obj []), []) := by
    unfold ensureObj; rw [hnone]
  rw [hF] at hF'
  simp only [Option.some.injEq, Prod.mk.injEq] at hF'
  obtain ⟨hCc, hpl0⟩ := hF'
  subst hpl0
  have hG' : ensureObj ([] : List (String × JVal)) "entries"
      = some ([("entries", .obj [])], []) := rfl
  rw [hG] at hG'
  simp only [Option.some.injEq, Prod.mk.injEq] at hG'
  obtain ⟨hpl1, hen0⟩ := hG'
  subst hCc hpl1 hen0
  refine ⟨?_, rfl⟩
  unfold memCleanup
  simp only []
  rw [if_pos (by decide : ([] : List (String × JVal)).isEmpty = true)]
  exact dictDel_dictSet_absent _ _ hnone

/-- A present entry in the processed entries dict is found at
`plugins.entries.<id>` of the final document. -/
theorem memCleanup_entry_get {cfgC plugins1 entries2 : List (String × JVal)}
    {id : String} {w : JVal} (hw : dictGet entries2 id = some w) :
    getPath (.obj (memCleanup cfgC plugins1 entries2)) ["plugins", "entries", id]
      = some w := by
  have h3 := getPath_append (.obj (memCleanup cfgC plugins1 entries2))
    ["plugins", "entries"] [id]
  rw [show ((["plugins", "entries"] : List String) ++ [id])
    = ["plugins", "entries", id] from rfl] at h3
  rw [h3, memCleanup_entries (dictGet_some_not_empty hw), getPathO_some,
    getPath_obj_cons, hw, getPathO_some, getPath_nil]

/-- An existing entry processed with an empty API key ends up with `enabled`
set to `False` and everything else untouched (when `enabled` was already
exactly `False` the entry is bit-for-bit unchanged). -/
theorem pluginStep_disable_get {id : String} {desired : JVal} {note dnote : String}
    {entries0 entries' : List (String × JVal)} {ch ch' : List String}
    {entry : List (String × JVal)}
    (hstep : pluginStep id "" desired note dnote entries0 ch = some (entries', ch'))
    (hent : dictGet entries0 id = some (.obj entry)) :
    dictGet entries' id = some (.obj (dictSet entry "enabled" (.bool false))) := by
  rcases pluginStep_empty_cases hstep with ⟨hn, _⟩ | ⟨entry', hent', hbr⟩
  · rw [hent] at hn; exact Option.noConfusion hn
  · rw [hent] at hent'
    have hee : entry' = entry := by
      simp only [Option.some.injEq, JVal.obj.injEq] at hent'
      exact hent'.symm
    subst hee
    rcases hbr with ⟨hfalse, he⟩ | ⟨_, he⟩
    · subst he
      rw [hent, dictSet_get_self _ hfalse]
    · subst he
      exact dictGet_dictSet_self ..

/-- C4: the plugin lifecycle of `apply_memory_settings` — a non-empty API
key creates or replaces the entry with the desired `{enabled, config}` block
(defaults applied for empty base URL / user id arguments inside
`desiredMem0`/`desiredCognee`); an empty key with an existing entry merely
forces its `enabled` field to `False`, preserving every other field; two
empty keys against a document without `plugins` leave it without
`plugins`. -/
theorem C4_plugin_lifecycle (em si : Bool) (m0k m0b m0u cgk cgb : String)
    (cfg0 : Option JVal) (doc : JVal) (ch : List String)
    (h : apply_memory_settings em si m0k m0b m0u cgk cgb cfg0 = .ok doc ch) :
    (m0k ≠ "" → getPath doc ["plugins", "entries", "openclaw-mem0"]
      = some (desiredMem0 m0k m0b m0u)) ∧
    (cgk ≠ "" → getPath doc ["plugins", "entries", "memory-cognee"]
      = some (desiredCognee cgk cgb)) ∧
    (∀ entry, m0k = "" →
      getPathO cfg0 ["plugins", "entries", "openclaw-mem0"] = some (.obj entry) →
      getPath doc ["plugins", "entries", "openclaw-mem0"]
        = some (.obj (dictSet entry "enabled" (.bool false))) ∧
      ∀ k', k' ≠ "enabled" →
        dictGet (dictSet entry "enabled" (.bool false)) k' = dictGet entry k') ∧
    (∀ entry, cgk = "" →
      getPathO cfg0 ["plugins", "entries", "memory-cognee"] = some (.obj entry) →
      getPath doc ["plugins", "entries", "memory-cognee"]
        = some (.obj (dictSet entry "enabled" (.bool false))) ∧
      ∀ k', k' ≠ "enabled" →
        dictGet (dictSet entry "enabled" (.bool false)) k' = dictGet entry k') ∧
    (m0k = "" → cgk = "" → getPathO cfg0 ["plugins"] = none →
      getPath doc ["plugins"] = none) := by
  obtain ⟨cfgA, cfgB, agents0, agents1, defaults0, curMS, defaults1, chD, cfgC,
    plugins0, plugins1, entries0, entries1, chA, entries2,
    hA, hB, hC, hD, hE, hF, hG, hH, hI, hdoc⟩ := mem_ok_elim h
  subst hdoc
  have hne1 : ("memory-cognee" : String) ≠ "openclaw-mem0" := by decide
  have hne2 : ("openclaw-mem0" : String) ≠ "memory-cognee" := by decide
  refine ⟨?_, ?_, ?_, ?_, ?_⟩
  · intro hm0
    exact memCleanup_entry_get
      (by rw [pluginStep_get_ne hI hne2]
          exact pluginStep_get_self hH hm0)
  · intro hcg
    exact memCleanup_entry_get (pluginStep_get_self hI hcg)
  · intro entry hm0 horig
    subst hm0
    refine ⟨?_, fun k' hk' => dictGet_dictSet_ne _ _ hk'⟩
    rcases rootFields_cases hA with hc0 | ⟨hc0, hnilA⟩
    · subst hc0
      rw [getPathO_some] at horig
      have hent0 := entries0_of_orig hB hF hG horig
      refine memCleanup_entry_get ?_
      rw [pluginStep_get_ne hI hne2]
      exact pluginStep_disable_get hH hent0
    · subst hc0
      exact Option.noConfusion horig
  · intro entry hcg horig
    subst hcg
    refine ⟨?_, fun k' hk' => dictGet_dictSet_ne _ _ hk'⟩
    rcases rootFields_cases hA with hc0 | ⟨hc0, hnilA⟩
    · subst hc0
      rw [getPathO_some] at horig
      have hent0 := entries0_of_orig hB hF hG horig
      have hent1 : dictGet entries1 "memory-cognee" = some (.obj entry) := by
        rw [pluginStep_get_ne hH hne1]
        exact hent0
      exact memCleanup_entry_get (pluginStep_disable_get hI hent1)
    · subst hc0
      exact Option.noConfusion horig
  · intro hm0 hcg hnone
    subst hm0 hcg
    have hplA : dictGet cfgA "plugins" = none := by
      rcases rootFields_cases hA with hc0 | ⟨hc0, hnilA⟩
      · subst hc0
        rw [getPathO_some, getPath_obj_cons] at hnone
        cases hw : dictGet cfgA "plugins" with
        | none => rfl
        | some w =>
          rw [hw, getPathO_some, getPath_nil] at hnone
          exact Option.noConfusion hnone
      · subst hc0 hnilA
        rfl
    have hpl2 : dictGet (dictSet cfgB "agents"
        (.obj (dictSet agents1 "defaults" (.obj defaults1)))) "plugins" = none := by
      rw [dictGet_dictSet_ne _ _ (by decide : ("plugins" : String) ≠ "agents"),
        ensureObj_get_ne hB (by decide : ("plugins" : String) ≠ "agents")]
      exact hplA
    obtain ⟨hclean, hen0⟩ := memCleanup_no_plugins hpl2 hF hG
    subst hen0
    have hen1 : entries1 = [] := by
      rcases pluginStep_empty_cases hH with ⟨_, he⟩ | ⟨entry, hent, _⟩
      · exact he
      · exact Option.noConfusion hent
    subst hen1
    have hen2 : entries2 = [] := by
      rcases pluginStep_empty_cases hI with ⟨_, he⟩ | ⟨entry, hent, _⟩
      · exact he
      · exact Option.noConfusion hent
    subst hen2
    rw [hclean, getPath_obj_cons, hpl2]
    rfl

/-! ### Relating merge-time values to the original document -/

/-- Descending one level through an ensured container reads the same values
as the original document (the fresh empty container holds nothing). -/
theorem ensure_path {d d' fs : List (String × JVal)} {k : String}
    (hE : ensureObj d k = some (d', fs)) (k' : String) (q : List String) :
    getPathO (dictGet d k) (k' :: q) = getPath (.obj fs) (k' :: q) := by
  rcases ensureObj_cases hE with ⟨hex, _⟩ | ⟨hab, _, hfs⟩
  · rw [hex, getPathO_some]
  · subst hfs
    rw [hab, getPathO_none, getPath_obj_cons]
    rfl

theorem getD_getPathO_nil (o : Option JVal) (dflt : JVal) :
    (getPathO o []).getD dflt = o.getD dflt := by
  cases o with
  | none => rfl
  | some v => rw [getPathO_some, getPath_nil]

/-- The scalar gateway fields seen by the merge are the original document's
`gateway.<key>` values (with the documented default for absence). -/
theorem gw_cur_scalar {cfgA cfgB gw0 gw1 cu0 gw2 http0 : List (String × JVal)}
    (hB : ensureObj cfgA "gateway" = some (cfgB, gw0))
    (hC : ensureObj gw0 "controlUi" = some (gw1, cu0))
    (hD : ensureObj gw1 "http" = some (gw2, http0))
    (key : String) (hk1 : key ≠ "controlUi") (hk2 : key ≠ "http") (dflt : JVal) :
    (dictGet gw2 key).getD dflt = (getPath (.obj cfgA) ["gateway", key]).getD dflt := by
  have h1 : dictGet gw2 key = dictGet gw0 key := by
    rw [ensureObj_get_ne hD hk2, ensureObj_get_ne hC hk1]
  rw [h1, getPath_obj_cons, ensure_path hB key [], getPath_obj_cons,
    getD_getPathO_nil]

/-- The `chatCompletions.enabled` value seen by the merge is the original
document's value at the nested path. -/
theorem gw_cur_cc {cfgA cfgB gw0 gw1 cu0 gw2 http0 http1 ep0 ep1 cc0 :
      List (String × JVal)}
    (hB : ensureObj cfgA "gateway" = some (cfgB, gw0))
    (hC : ensureObj gw0 "controlUi" = some (gw1, cu0))
    (hD : ensureObj gw1 "http" = some (gw2, http0))
    (hE : ensureObj http0 "endpoints" = some (http1, ep0))
    (hF : ensureObj ep0 "chatCompletions" = some (ep1, cc0)) (dflt : JVal) :
    (dictGet cc0 "enabled").getD dflt =
      (getPath (.obj cfgA)
        ["gateway", "http", "endpoints", "chatCompletions", "enabled"]).getD dflt := by
  have h1 : dictGet gw0 "http" = dictGet gw1 "http" :=
    (ensureObj_get_ne hC (by decide : ("http" : String) ≠ "controlUi")).symm
  rw [getPath_obj_cons, ensure_path hB, getPath_obj_cons, h1, ensure_path hD,
    getPath_obj_cons, ensure_path hE, getPath_obj_cons, ensure_path hF,
    getPath_obj_cons, getD_getPathO_nil]

/-- The `allowInsecureAuth` value seen by the merge is the original
document's value at `gateway.controlUi.allowInsecureAuth`. -/
theorem gw_cur_cu {cfgA cfgB gw0 gw1 cu0 : List (String × JVal)}
    (hB : ensureObj cfgA "gateway" = some (cfgB, gw0))
    (hC : ensureObj gw0 "controlUi" = some (gw1, cu0)) (dflt : JVal) :
    (dictGet cu0 "allowInsecureAuth").getD dflt =
      (getPath (.obj cfgA) ["gateway", "controlUi", "allowInsecureAuth"]).getD dflt := by
  rw [getPath_obj_cons, ensure_path hB, getPath_obj_cons, ensure_path hC,
    getPath_obj_cons, getD_getPathO_nil]

/-- The change list of the merge, field by field: one note per differing
managed field, judged against the pre-merge values with their defaults. -/
theorem gwMerge_changes (mode bind_mode : String) (port : Int) (eoa aia : Bool)
    (cfg gw cu http ep cc : List (String × JVal)) :
    (gwMerge mode bind_mode port eoa aia cfg gw cu http ep cc).2 =
      (if (dictGet gw "mode").getD (.str "") = .str mode then []
       else [⟨"mode", (dictGet gw "mode").getD (.str ""), .str mode⟩]) ++
      (if (dictGet gw "bind").getD (.str "") = .str bind_mode then []
       else [⟨"bind", (dictGet gw "bind").getD (.str ""), .str bind_mode⟩]) ++
      (if (dictGet gw "port").getD (.num 18789) = .num port then []
       else [⟨"port", (dictGet gw "port").getD (.num 18789), .num port⟩]) ++
      (if (dictGet cc "enabled").getD (.bool false) = .bool eoa then []
       else [⟨"chatCompletions.enabled",
         (dictGet cc "enabled").getD (.bool false), .bool eoa⟩]) ++
      (if (dictGet cu "allowInsecureAuth").getD (.bool false) = .bool aia then []
       else [⟨"allowInsecureAuth",
         (dictGet cu "allowInsecureAuth").getD (.bool false), .bool aia⟩]) := by
  unfold gwMerge
  simp only []
  rw [updateField_changes, updateField_changes, updateField_changes,
    updateField_changes, updateField_changes,
    updateField_get_ne _ _ _ _ _ (by decide : ("bind" : String) ≠ "mode"),
    updateField_get_ne _ _ _ _ _ (by decide : ("port" : String) ≠ "bind"),
    updateField_get_ne _ _ _ _ _ (by decide : ("port" : String) ≠ "mode")]

/-- C7: the gateway merge works field by field against the current values
(defaults for absence), and a document already holding the desired `bind`,
`chatCompletions.enabled` and `allowInsecureAuth` while `mode` and `port`
differ yields a change list naming exactly `mode` and `port`, each note
carrying the old and the new value. -/
theorem C7_change_notes (mode bind_mode : String) (port : Int) (eoa aia : Bool)
    (doc0 doc : JVal) (ch : List Note)
    (h : apply_gateway_settings mode bind_mode port eoa aia (some doc0) = .ok doc ch)
    (hbind : (getPath doc0 ["gateway", "bind"]).getD (.str "") = .str bind_mode)
    (hcc : (getPath doc0 ["gateway", "http", "endpoints", "chatCompletions",
      "enabled"]).getD (.bool false) = .bool eoa)
    (hcu : (getPath doc0 ["gateway", "controlUi", "allowInsecureAuth"]).getD
      (.bool false) = .bool aia)
    (hmode : (getPath doc0 ["gateway", "mode"]).getD (.str "") ≠ .str mode)
    (hport : (getPath doc0 ["gateway", "port"]).getD (.num 18789) ≠ .num port) :
    ch = [⟨"mode", (getPath doc0 ["gateway", "mode"]).getD (.str ""), .str mode⟩,
      ⟨"port", (getPath doc0 ["gateway", "port"]).getD (.num 18789), .num port⟩] := by
  obtain ⟨cfgA, cfgB, gw0, gw1, cu0, gw2, http0, http1, ep0, ep1, cc0,
    _, _, _, hA, hB, hC, hD, hE, hF, hdoc, hch⟩ := gw_ok_elim h
  have hdocA : doc0 = .obj cfgA := by
    rcases rootFields_cases hA with hc | ⟨hc, _⟩
    · exact Option.some.inj hc
    · exact Option.noConfusion hc
  subst hdocA
  rw [← gw_cur_scalar hB hC hD "bind" (by decide) (by decide)] at hbind
  rw [← gw_cur_cc hB hC hD hE hF] at hcc
  rw [← gw_cur_cu hB hC] at hcu
  rw [← gw_cur_scalar hB hC hD "mode" (by decide) (by decide)] at hmode
  rw [← gw_cur_scalar hB hC hD "port" (by decide) (by decide)] at hport
  rw [hch, gwMerge_changes, if_neg hmode, if_pos hbind, if_neg hport,
    if_pos hcc, if_pos hcu,
    gw_cur_scalar hB hC hD "mode" (by decide) (by decide),
    gw_cur_scalar hB hC hD "port" (by decide) (by decide)]
  rfl

theorem C7_change_notes_witness :
    ([⟨"mode", .str "", .str "remote"⟩, ⟨"port", .num 18789, .num 9999⟩]
        : List Note) =
      [⟨"mode", (getPath (.obj [("gateway", .obj [("bind", .str "loopback")])])
          ["gateway", "mode"]).getD (.str ""), .str "remote"⟩,
       ⟨"port", (getPath (.obj [("gateway", .obj [("bind", .str "loopback")])])
          ["gateway", "port"]).getD (.num 18789), .num 9999⟩] :=
  (C7_change_notes "remote" "loopback" 9999 false false
    (.obj [("gateway", .obj [("bind", .str "loopback")])])
    (.obj [("gateway", .obj
      [("bind", .str "loopback"), ("controlUi", .obj []),
       ("http", .obj [("endpoints", .obj [("chatCompletions", .obj [])])]),
       ("mode", .str "remote"), ("port", .num 9999)])])
    [⟨"mode", .str "", .str "remote"⟩, ⟨"port", .num 18789, .num 9999⟩]
    rfl rfl rfl rfl (by decide) (by decide)).symm

theorem C4_plugin_lifecycle_witness :
    getPath (.obj
      [("agents", .obj [("defaults", .obj
        [("memorySearch", .obj (buildMS true true [])),
         ("compaction", desiredCompaction)])]),
       ("plugins", .obj [("entries", .obj
         [("openclaw-mem0", desiredMem0 "KEY" "" "")])])])
      ["plugins", "entries", "openclaw-mem0"] = some (desiredMem0 "KEY" "" "") :=
  (C4_plugin_lifecycle true true "KEY" "" "" "" "" none _
    ["memorySearch", "compaction", "plugins.openclaw-mem0"] rfl).1 (by decide)

/-- The only `.error` `read_config` produces is the `UnicodeDecodeError` of
the invalid-UTF-8 state. -/
theorem read_config_error {fs : FileState} {e : String}
    (h : read_config fs = .error e) :
    e = "UnicodeDecodeError" ∧ fs = .invalidUtf8 := by
  cases fs with
  | missing => exact Except.noConfusion h
  | unreadable => exact Except.noConfusion h
  | invalidUtf8 =>
    refine ⟨?_, rfl⟩
    injection h with h1
    exact h1.symm
  | good j => exact Except.noConfusion h

theorem apply_gateway_from_file_error {mode bind_mode : String} {port : Int}
    {eoa aia : Bool} {fs : FileState} {e : String}
    (h : apply_gateway_from_file mode bind_mode port eoa aia fs = .error e) :
    e = "UnicodeDecodeError" ∧ fs = .invalidUtf8 := by
  unfold apply_gateway_from_file at h
  repeat' split at h
  all_goals first
    | exact Except.noConfusion h
    | (injection h with h1; subst h1; exact read_config_error (by assumption))

theorem apply_memory_from_file_error {em si : Bool}
    {m0k m0b m0u cgk cgb : String} {fs : FileState} {e : String}
    (h : apply_memory_from_file em si m0k m0b m0u cgk cgb fs = .error e) :
    e = "UnicodeDecodeError" ∧ fs = .invalidUtf8 := by
  unfold apply_memory_from_file at h
  repeat' split at h
  all_goals first
    | exact Except.noConfusion h
    | (injection h with h1; subst h1; exact read_config_error (by assumption))

theorem get_gateway_setting_error {key : String} {fs : FileState} {e : String}
    (h : get_gateway_setting key fs = .error e) :
    (e = "UnicodeDecodeError" ∧ fs = .invalidUtf8) ∨ e = "AttributeError" := by
  unfold get_gateway_setting at h
  repeat' split at h
  all_goals first
    | exact Except.noConfusion h
    | (injection h with h1; subst h1;
       exact Or.inl (read_config_error (by assumption)))
    | (injection h with h1; subst h1; exact Or.inr rfl)

theorem set_gateway_setting_raised {key : String} {value : JVal}
    {fs : FileState} {e : String}
    (h : set_gateway_setting key value fs = .raised e) :
    (e = "UnicodeDecodeError" ∧ fs = .invalidUtf8) ∨ e = "TypeError" := by
  unfold set_gateway_setting at h
  repeat' split at h
  all_goals first
    | exact SetResult.noConfusion h
    | (injection h with h1; subst h1;
       exact Or.inl (read_config_error (by assumption)))
    | (injection h with h1; subst h1; exact Or.inr rfl)

/-- C6 counterexample: a non-integer port argument makes `int(sys.argv[4])`
raise an uncaught `ValueError`, and a `get` against a file whose read
failure is caught (an OS read error or JSON-undecodable UTF-8 text) prints
the read error yet exits 0 — two failure modes the claim rules out. -/
theorem C6_counterexample :
    oc_main ["oc_config_helper.py", "apply-gateway-settings", "local", "loopback",
        "abc", "true", "false"] .missing true = .uncaught "ValueError" ∧
    oc_main ["oc_config_helper.py", "get", "mode"] .unreadable true
      = .exit 0 true := by
  constructor <;> rfl

/-- C6 amended: every non-zero exit is accompanied by a printed diagnostic,
and the exceptions that escape `main` uncaught are exactly of four kinds —
the `ValueError` from a port argument `int()` rejects, the
`UnicodeDecodeError` from reading a config file whose bytes are not valid
UTF-8 (possible for every command that reaches the read), and the
`TypeError`/`AttributeError` raised when the parsed document has a
non-mapping at a node a command needs.  A well-formed `get` exits 0 against
a file whose read failure is caught and reported, but raises uncaught
against an invalid-UTF-8 file. -/
theorem C6_amended :
    (∀ (argv : List String) (fs : FileState) (w : Bool) (c : Nat) (p : Bool),
      oc_main argv fs w = .exit c p → c ≠ 0 → p = true) ∧
    (∀ (argv : List String) (fs : FileState) (w : Bool) (e : String),
      oc_main argv fs w = .uncaught e →
        (e = "ValueError" ∧ (argv.get? 1).getD "" = "apply-gateway-settings" ∧
          pyInt ((argv.get? 4).getD "") = none) ∨
        (e = "UnicodeDecodeError" ∧ fs = .invalidUtf8) ∨
        e = "TypeError" ∨ e = "AttributeError") ∧
    (∀ (key : String) (w : Bool),
      oc_main ["oc_config_helper.py", "get", key] .unreadable w = .exit 0 true) ∧
    (∀ (key : String) (w : Bool),
      oc_main ["oc_config_helper.py", "get", key] .invalidUtf8 w
        = .uncaught "UnicodeDecodeError") := by
  refine ⟨?_, ?_, ?_, ?_⟩
  · intro argv fs w c p h hc
    unfold oc_main at h
    simp only [] at h
    repeat' split at h
    all_goals first
      | exact MainOutcome.noConfusion h
      | (injection h with h1 h2; exact absurd h1.symm hc)
      | (injection h with h1 h2; exact h2.symm)
  · intro argv fs w e h
    unfold oc_main at h
    simp only [] at h
    repeat' split at h
    all_goals first
      | exact MainOutcome.noConfusion h
      | (injection h with h1; subst h1; exact Or.inr (Or.inr (Or.inl rfl)))
      | (injection h with h1; subst h1;
         exact Or.inl ⟨rfl, by assumption, by assumption⟩)
      | (injection h with h1; subst h1;
         have hc2 := apply_gateway_from_file_error (by assumption); tauto)
      | (injection h with h1; subst h1;
         have hc2 := apply_memory_from_file_error (by assumption); tauto)
      | (injection h with h1; subst h1;
         have hc2 := get_gateway_setting_error (by assumption); tauto)
      | (injection h with h1; subst h1;
         have hc2 := set_gateway_setting_raised (by assumption); tauto)
  · intro key w
    rfl
  · intro key w
    rfl

theorem C6_amended_witness :
    ("ValueError" = "ValueError" ∧
      (((["oc_config_helper.py", "apply-gateway-settings", "local", "loopback",
        "abc", "true", "false"] : List String).get? 1).getD ""
        = "apply-gateway-settings") ∧
      pyInt (((["oc_config_helper.py", "apply-gateway-settings", "local",
        "loopback", "abc", "true", "false"] : List String).get? 4).getD "")
        = none) ∨
    ("ValueError" = "UnicodeDecodeError" ∧ FileState.missing = .invalidUtf8) ∨
    "ValueError" = "TypeError" ∨ "ValueError" = "AttributeError" :=
  C6_amended.2.1 ["oc_config_helper.py", "apply-gateway-settings", "local",
    "loopback", "abc", "true", "false"] .missing true "ValueError" rfl

/-! ### Idempotence of the gateway merge -/

/-- On a document whose managed gateway fields already hold the desired
values, the merge changes nothing and records no note. -/
theorem gwMerge_settled {mode bind_mode : String} {port : Int} {eoa aia : Bool}
    {cfgF gwC cu1 http1 ep1 cc1 : List (String × JVal)}
    (hgw : dictGet cfgF "gateway" = some (.obj gwC))
    (hcu : dictGet gwC "controlUi" = some (.obj cu1))
    (hhttp : dictGet gwC "http" = some (.obj http1))
    (hep : dictGet http1 "endpoints" = some (.obj ep1))
    (hcc : dictGet ep1 "chatCompletions" = some (.obj cc1))
    (hsm : (dictGet gwC "mode").getD (.str "") = .str mode)
    (hsb : (dictGet gwC "bind").getD (.str "") = .str bind_mode)
    (hsp : (dictGet gwC "port").getD (.num 18789) = .num port)
    (hse : (dictGet cc1 "enabled").getD (.bool false) = .bool eoa)
    (hsa : (dictGet cu1 "allowInsecureAuth").getD (.bool false) = .bool aia) :
    gwMerge mode bind_mode port eoa aia cfgF gwC cu1 http1 ep1 cc1
      = (.obj cfgF, []) := by
  unfold gwMerge
  simp only []
  rw [updateField_settled _ hsm]
  simp only []
  rw [updateField_settled _ hsb]
  simp only []
  rw [updateField_settled _ hsp, updateField_settled _ hse, updateField_settled _ hsa]
  simp only []
  rw [dictSet_get_self _ hcc, dictSet_get_self _ hep, dictSet_get_self _ hhttp,
    dictSet_get_self _ hcu, dictSet_get_self _ hgw]
  rfl

/-- The merge leaves the managed gateway fields settled at the desired
values, with all containers in place. -/
theorem gwMerge_out (mode bind_mode : String) (port : Int) (eoa aia : Bool)
    (cfg gw cu http ep cc : List (String × JVal)) :
    ∃ gwC cu1 http1 ep1 cc1 : List (String × JVal),
      (gwMerge mode bind_mode port eoa aia cfg gw cu http ep cc).1
        = .obj (dictSet cfg "gateway" (.obj gwC)) ∧
      dictGet gwC "controlUi" = some (.obj cu1) ∧
      dictGet gwC "http" = some (.obj http1) ∧
      dictGet http1 "endpoints" = some (.obj ep1) ∧
      dictGet ep1 "chatCompletions" = some (.obj cc1) ∧
      (dictGet gwC "mode").getD (.str "") = .str mode ∧
      (dictGet gwC "bind").getD (.str "") = .str bind_mode ∧
      (dictGet gwC "port").getD (.num 18789) = .num port ∧
      (dictGet cc1 "enabled").getD (.bool false) = .bool eoa ∧
      (dictGet cu1 "allowInsecureAuth").getD (.bool false) = .bool aia := by
  refine ⟨dictSet (dictSet (updateField (updateField (updateField gw "mode"
      (.str "") (.str mode) "mode").1 "bind" (.str "") (.str bind_mode)
      "bind").1 "port" (.num 18789) (.num port) "port").1 "http"
      (.obj (dictSet http "endpoints" (.obj (dictSet ep "chatCompletions"
        (.obj (updateField cc "enabled" (.bool false) (.bool eoa)
          "chatCompletions.enabled").1))))))
      "controlUi" (.obj (updateField cu "allowInsecureAuth" (.bool false)
        (.bool aia) "allowInsecureAuth").1),
    (updateField cu "allowInsecureAuth" (.bool false) (.bool aia)
      "allowInsecureAuth").1,
    dictSet http "endpoints" (.obj (dictSet ep "chatCompletions"
      (.obj (updateField cc "enabled" (.bool false) (.bool eoa)
        "chatCompletions.enabled").1))),
    dictSet ep "chatCompletions" (.obj (updateField cc "enabled" (.bool false)
      (.bool eoa) "chatCompletions.enabled").1),
    (updateField cc "enabled" (.bool false) (.bool eoa)
      "chatCompletions.enabled").1,
    rfl, ?_, ?_, ?_, ?_, ?_, ?_, ?_, ?_, ?_⟩
  · exact dictGet_dictSet_self ..
  · rw [dictGet_dictSet_ne _ _ (by decide : ("http" : String) ≠ "controlUi")]
    exact dictGet_dictSet_self ..
  · exact dictGet_dictSet_self ..
  · exact dictGet_dictSet_self ..
  · rw [dictGet_dictSet_ne _ _ (by decide : ("mode" : String) ≠ "controlUi"),
      dictGet_dictSet_ne _ _ (by decide : ("mode" : String) ≠ "http"),
      updateField_get_ne _ _ _ _ _ (by decide : ("mode" : String) ≠ "port"),
      updateField_get_ne _ _ _ _ _ (by decide : ("mode" : String) ≠ "bind")]
    exact updateField_get_self ..
  · rw [dictGet_dictSet_ne _ _ (by decide : ("bind" : String) ≠ "controlUi"),
      dictGet_dictSet_ne _ _ (by decide : ("bind" : String) ≠ "http"),
      updateField_get_ne _ _ _ _ _ (by decide : ("bind" : String) ≠ "port")]
    exact updateField_get_self ..
  · rw [dictGet_dictSet_ne _ _ (by decide : ("port" : String) ≠ "controlUi"),
      dictGet_dictSet_ne _ _ (by decide : ("port" : String) ≠ "http")]
    exact updateField_get_self ..
  · exact updateField_get_self ..
  · exact updateField_get_self ..

/-- Applying the gateway settings to a settled document is a no-op
returning an empty change list. -/
theorem gw_settled_apply {mode bind_mode : String} {port : Int} {eoa aia : Bool}
    {cfgF gwC cu1 http1 ep1 cc1 : List (String × JVal)}
    (hvm : mode = "local" ∨ mode = "remote")
    (hvb : bind_mode = "loopback" ∨ bind_mode = "lan")
    (hvp : 1 ≤ port ∧ port ≤ 65535)
    (hgw : dictGet cfgF "gateway" = some (.obj gwC))
    (hcu : dictGet gwC "controlUi" = some (.obj cu1))
    (hhttp : dictGet gwC "http" = some (.obj http1))
    (hep : dictGet http1 "endpoints" = some (.obj ep1))
    (hcc : dictGet ep1 "chatCompletions" = some (.obj cc1))
    (hsm : (dictGet gwC "mode").getD (.str "") = .str mode)
    (hsb : (dictGet gwC "bind").getD (.str "") = .str bind_mode)
    (hsp : (dictGet gwC "port").getD (.num 18789) = .num port)
    (hse : (dictGet cc1 "enabled").getD (.bool false) = .bool eoa)
    (hsa : (dictGet cu1 "allowInsecureAuth").getD (.bool false) = .bool aia) :
    apply_gateway_settings mode bind_mode port eoa aia (some (.obj cfgF))
      = .ok (.obj cfgF) [] := by
  unfold apply_gateway_settings
  rw [if_neg (by tauto), if_neg (by tauto), if_neg (by omega)]
  simp only [rootFields]
  rw [ensureObj_of_get_obj hgw]
  simp only []
  rw [ensureObj_of_get_obj hcu]
  simp only []
  rw [ensureObj_of_get_obj hhttp]
  simp only []
  rw [ensureObj_of_get_obj hep]
  simp only []
  rw [ensureObj_of_get_obj hcc]
  simp only []
  rw [gwMerge_settled hgw hcu hhttp hep hcc hsm hsb hsp hse hsa]

/-- A second identical gateway application on the produced document is a
no-op. -/
theorem gw_second_run {mode bind_mode : String} {port : Int} {eoa aia : Bool}
    {cfg0 : Option JVal} {doc : JVal} {ch : List Note}
    (h : apply_gateway_settings mode bind_mode port eoa aia cfg0 = .ok doc ch) :
    apply_gateway_settings mode bind_mode port eoa aia (some doc) = .ok doc [] := by
  obtain ⟨cfgA, cfgB, gw0, gw1, cu0, gw2, http0, http1, ep0, ep1, cc0,
    hvm, hvb, hvp, hA, hB, hC, hD, hE, hF, hdoc, hch⟩ := gw_ok_elim h
  obtain ⟨gwC, cu1, http1', ep1', cc1, hout, hcu, hhttp, hep, hcc,
    hsm, hsb, hsp, hse, hsa⟩ :=
    gwMerge_out mode bind_mode port eoa aia cfgB gw2 cu0 http1 ep1 cc0
  rw [hout] at hdoc
  subst hdoc
  exact gw_settled_apply hvm hvb hvp (dictGet_dictSet_self ..) hcu hhttp hep hcc
    hsm hsb hsp hse hsa

/-! ### Idempotence of the memory merge -/

theorem buildMS_congr (em si : Bool) (cur cur' : List (String × JVal))
    (h1 : dictGet cur "provider" = dictGet cur' "provider")
    (h2 : dictGet cur "model" = dictGet cur' "model")
    (h3 : dictGet cur "remote" = dictGet cur' "remote")
    (h4 : dictGet cur "fallback" = dictGet cur' "fallback") :
    buildMS em si cur = buildMS em si cur' := by
  unfold buildMS ownedKeys
  simp only [List.foldl_cons, List.foldl_nil]
  rw [h1, h2, h3, h4]

/-- Rebuilding the desired `memorySearch` block from itself changes
nothing: the user-owned keys it carries are exactly the copied ones. -/
theorem buildMS_stable (em si : Bool) (cur : List (String × JVal)) :
    buildMS em si (buildMS em si cur) = buildMS em si cur :=
  buildMS_congr em si (buildMS em si cur) cur
    (buildMS_get_owned em si cur (by decide))
    (buildMS_get_owned em si cur (by decide))
    (buildMS_get_owned em si cur (by decide))
    (buildMS_get_owned em si cur (by decide))

/-- After the defaults merge, `compaction` holds the fixed desired block. -/
theorem memDefaults_comp_settled (em si : Bool)
    (defaults0 curMS : List (String × JVal)) :
    (dictGet (memDefaults em si defaults0 curMS).1 "compaction").getD (.obj [])
      = desiredCompaction := by
  unfold memDefaults memDefaultsDict
  simp only []
  by_cases h2 : (dictGet defaults0 "compaction").getD (.obj []) = desiredCompaction
  · rw [if_pos h2]
    by_cases h1 : curMS = buildMS em si curMS
    · rw [if_pos h1]; exact h2
    · rw [if_neg h1,
        dictGet_dictSet_ne _ _ (by decide : ("compaction" : String) ≠ "memorySearch")]
      exact h2
  · rw [if_neg h2, dictGet_dictSet_self]
    rfl

/-- The defaults merge on an already-settled defaults dict is a no-op with
no change notes. -/
theorem memDefaults_noop {em si : Bool} {defaults1 curMS : List (String × JVal)}
    (h1 : curMS = buildMS em si curMS)
    (h2 : (dictGet defaults1 "compaction").getD (.obj []) = desiredCompaction) :
    memDefaults em si defaults1 curMS = (defaults1, []) := by
  unfold memDefaults memDefaultsDict memDefaultsChanges
  simp only []
  rw [if_pos h1, if_pos h2, if_pos h1, if_pos h2]
  rfl

/-- What a plugin step guarantees about the processed entry. -/
theorem pluginStep_settled {id key : String} {desired : JVal} {note dnote : String}
    {entries0 entries1 : List (String × JVal)} {ch ch' : List String}
    (h : pluginStep id key desired note dnote entries0 ch = some (entries1, ch')) :
    (key ≠ "" ∧ dictGet entries1 id = some desired) ∨
    (key = "" ∧ (dictGet entries1 id = none ∨
      ∃ e, dictGet entries1 id = some (.obj e) ∧
        dictGet e "enabled" = some (.bool false))) := by
  by_cases hk : key = ""
  · subst hk
    refine Or.inr ⟨rfl, ?_⟩
    rcases pluginStep_empty_cases h with ⟨hn, he⟩ | ⟨e, hent, hbr⟩
    · subst he; exact Or.inl hn
    · rcases hbr with ⟨hfalse, he⟩ | ⟨_, he⟩ <;> subst he
      · exact Or.inr ⟨e, hent, hfalse⟩
      · exact Or.inr ⟨dictSet e "enabled" (.bool false), dictGet_dictSet_self ..,
          dictGet_dictSet_self ..⟩
  · exact Or.inl ⟨hk, pluginStep_get_self h hk⟩

/-- A plugin step on a settled entries dict is a no-op. -/
theorem pluginStep_noop {id key : String} {desired : JVal} {note dnote : String}
    {entries : List (String × JVal)} {ch : List String}
    (hs : (key ≠ "" ∧ dictGet entries id = some desired) ∨
      (key = "" ∧ (dictGet entries id = none ∨
        ∃ e, dictGet entries id = some (.obj e) ∧
          dictGet e "enabled" = some (.bool false)))) :
    pluginStep id key desired note dnote entries ch = some (entries, ch) := by
  unfold pluginStep
  rcases hs with ⟨hk, hd⟩ | ⟨hk, hd⟩
  · rw [if_pos hk, if_pos hd]
  · subst hk
    rw [if_neg (by simp : ¬("" : String) ≠ "")]
    rcases hd with hn | ⟨e, hent, hfalse⟩
    · rw [hn]
    · rw [hent]
      simp only []
      rw [if_pos hfalse]

/-- The cleanup expressed by cases. -/
theorem memCleanup_eq (cfgC plugins1 entries2 : List (String × JVal)) :
    memCleanup cfgC plugins1 entries2 =
      if entries2.isEmpty then
        (if (dictDel plugins1 "entries").isEmpty then dictDel cfgC "plugins"
         else dictSet cfgC "plugins" (.obj (dictDel plugins1 "entries")))
      else dictSet cfgC "plugins" (.obj (dictSet plugins1 "entries" (.obj entries2))) := by
  unfold memCleanup
  simp only []
  by_cases h : entries2.isEmpty = true
  · rw [if_pos h, if_pos h]
  · rw [if_neg h, if_neg h,
      if_neg (by rw [dictSet_not_empty]; exact Bool.false_ne_true)]

/-- Applying the memory settings to a settled document is a no-op with an
empty change list. -/
theorem mem_settled_apply {em si : Bool} {m0k m0b m0u cgk cgb : String}
    {docF A2 defaults1 B C2 P2 P3 E2 : List (String × JVal)}
    (F1 : dictGet docF "agents" = some (.obj A2))
    (F2 : dictGet A2 "defaults" = some (.obj defaults1))
    (F3 : dictGet defaults1 "memorySearch" = some (.obj B))
    (F4 : memDefaults em si defaults1 B = (defaults1, []))
    (F7 : ensureObj docF "plugins" = some (C2, P2))
    (F8 : ensureObj P2 "entries" = some (P3, E2))
    (F9 : pluginStep "openclaw-mem0" m0k (desiredMem0 m0k m0b m0u)
      "plugins.openclaw-mem0" "plugins.openclaw-mem0 disabled" E2 []
      = some (E2, []))
    (F10 : pluginStep "memory-cognee" cgk (desiredCognee cgk cgb)
      "plugins.memory-cognee" "plugins.memory-cognee disabled" E2 []
      = some (E2, []))
    (F11 : memCleanup C2 P3 E2 = docF) :
    apply_memory_settings em si m0k m0b m0u cgk cgb (some (.obj docF))
      = .ok (.obj docF) [] := by
  unfold apply_memory_settings
  simp only [rootFields]
  rw [ensureObj_of_get_obj F1]
  simp only []
  rw [ensureObj_of_get_obj F2]
  simp only []
  rw [F3]
  simp only [msFields]
  rw [F4]
  simp only []
  rw [dictSet_get_self _ F2, dictSet_get_self _ F1, F7]
  simp only []
  rw [F8]
  simp only []
  rw [F9]
  simp only []
  rw [F10]
  simp only []
  rw [F11]

/-- A second identical memory application on the produced document is a
no-op. -/
theorem mem_second_run {em si : Bool} {m0k m0b m0u cgk cgb : String}
    {cfg0 : Option JVal} {doc : JVal} {ch : List String}
    (h : apply_memory_settings em si m0k m0b m0u cgk cgb cfg0 = .ok doc ch) :
    apply_memory_settings em si m0k m0b m0u cgk cgb (some doc) = .ok doc [] := by
  obtain ⟨cfgA, cfgB, agents0, agents1, defaults0, curMS, defaults1, chD, cfgC,
    plugins0, plugins1, entries0, entries1, chA, entries2,
    hA, hB, hC, hD, hE, hF, hG, hH, hI, hdoc⟩ := mem_ok_elim h
  subst hdoc
  have hdef1 : defaults1 = (memDefaults em si defaults0 curMS).1 := by rw [hE]
  have F3 : dictGet defaults1 "memorySearch"
      = some (.obj (buildMS em si curMS)) := by
    rw [hdef1]; exact memDefaults_get_ms hD
  have F4 : memDefaults em si defaults1 (buildMS em si curMS) = (defaults1, []) :=
    memDefaults_noop (buildMS_stable em si curMS).symm
      (by rw [hdef1]; exact memDefaults_comp_settled ..)
  have F2 : dictGet (dictSet agents1 "defaults" (.obj defaults1)) "defaults"
      = some (.obj defaults1) := dictGet_dictSet_self ..
  have hagents2 : dictGet cfgC "agents"
      = some (.obj (dictSet agents1 "defaults" (.obj defaults1))) := by
    rw [ensureObj_get_ne hF (by decide : ("agents" : String) ≠ "plugins")]
    exact dictGet_dictSet_self ..
  have htr : dictGet entries2 "openclaw-mem0" = dictGet entries1 "openclaw-mem0" :=
    pluginStep_get_ne hI (by decide : ("openclaw-mem0" : String) ≠ "memory-cognee")
  have hS1 := pluginStep_settled hH
  rw [← htr] at hS1
  have hS2 := pluginStep_settled hI
  by_cases hne : entries2.isEmpty = true
  · -- the entries end up empty: both keys must be empty
    have he2 : entries2 = [] := by
      cases entries2 with
      | nil => rfl
      | cons a l => simp [List.isEmpty] at hne
    subst he2
    have hm0 : m0k = "" := by
      rcases hS1 with ⟨_, hd⟩ | ⟨hk, _⟩
      · exact Option.noConfusion hd
      · exact hk
    have hcg : cgk = "" := by
      rcases hS2 with ⟨_, hd⟩ | ⟨hk, _⟩
      · exact Option.noConfusion hd
      · exact hk
    subst hm0 hcg
    rw [memCleanup_eq, if_pos (by decide : ([] : List (String × JVal)).isEmpty = true)]
    by_cases hPL : (dictDel plugins1 "entries").isEmpty = true
    · rw [if_pos hPL]
      have F1 : dictGet (dictDel cfgC "plugins") "agents"
          = some (.obj (dictSet agents1 "defaults" (.obj defaults1))) := by
        rw [dictGet_dictDel_ne _ (by decide : ("agents" : String) ≠ "plugins")]
        exact hagents2
      have F7 : ensureObj (dictDel cfgC "plugins") "plugins"
          = some (dictSet (dictDel cfgC "plugins") "plugins" (.obj []), []) := by
        unfold ensureObj
        rw [dictGet_dictDel_self]
      have F8 : ensureObj ([] : List (String × JVal)) "entries"
          = some ([("entries", .obj [])], []) := rfl
      have F9 : pluginStep "openclaw-mem0" "" (desiredMem0 "" m0b m0u)
          "plugins.openclaw-mem0" "plugins.openclaw-mem0 disabled" [] []
          = some ([], []) := pluginStep_noop (Or.inr ⟨rfl, Or.inl rfl⟩)
      have F10 : pluginStep "memory-cognee" "" (desiredCognee "" cgb)
          "plugins.memory-cognee" "plugins.memory-cognee disabled" [] []
          = some ([], []) := pluginStep_noop (Or.inr ⟨rfl, Or.inl rfl⟩)
      have F11 : memCleanup (dictSet (dictDel cfgC "plugins") "plugins" (.obj []))
          [("entries", .obj [])] [] = dictDel cfgC "plugins" := by
        rw [memCleanup_eq,
          if_pos (by decide : ([] : List (String × JVal)).isEmpty = true),
          show dictDel [("entries", JVal.obj [])] "entries"
            = ([] : List (String × JVal)) from rfl,
          if_pos (by decide : ([] : List (String × JVal)).isEmpty = true)]
        exact dictDel_dictSet_absent _ _ (dictGet_dictDel_self ..)
      exact mem_settled_apply F1 F2 F3 F4 F7 F8 F9 F10 F11
    · rw [if_neg hPL]
      have hPL' : (dictDel plugins1 "entries").isEmpty = false := by
        revert hPL
        cases (dictDel plugins1 "entries").isEmpty <;> simp
      have F1 : dictGet (dictSet cfgC "plugins" (.obj (dictDel plugins1 "entries")))
          "agents" = some (.obj (dictSet agents1 "defaults" (.obj defaults1))) := by
        rw [dictGet_dictSet_ne _ _ (by decide : ("agents" : String) ≠ "plugins")]
        exact hagents2
      have F7 : ensureObj
          (dictSet cfgC "plugins" (.obj (dictDel plugins1 "entries"))) "plugins"
          = some (dictSet cfgC "plugins" (.obj (dictDel plugins1 "entries")),
            dictDel plugins1 "entries") :=
        ensureObj_of_get_obj (dictGet_dictSet_self ..)
      have F8 : ensureObj (dictDel plugins1 "entries") "entries"
          = some (dictSet (dictDel plugins1 "entries") "entries" (.obj []), []) := by
        unfold ensureObj
        rw [dictGet_dictDel_self]
      have F9 : pluginStep "openclaw-mem0" "" (desiredMem0 "" m0b m0u)
          "plugins.openclaw-mem0" "plugins.openclaw-mem0 disabled" [] []
          = some ([], []) := pluginStep_noop (Or.inr ⟨rfl, Or.inl rfl⟩)
      have F10 : pluginStep "memory-cognee" "" (desiredCognee "" cgb)
          "plugins.memory-cognee" "plugins.memory-cognee disabled" [] []
          = some ([], []) := pluginStep_noop (Or.inr ⟨rfl, Or.inl rfl⟩)
      have F11 : memCleanup
          (dictSet cfgC "plugins" (.obj (dictDel plugins1 "entries")))
          (dictSet (dictDel plugins1 "entries") "entries" (.obj [])) []
          = dictSet cfgC "plugins" (.obj (dictDel plugins1 "entries")) := by
        rw [memCleanup_eq,
          if_pos (by decide : ([] : List (String × JVal)).isEmpty = true),
          dictDel_dictSet_absent _ _ (dictGet_dictDel_self ..),
          if_neg (by rw [hPL']; exact Bool.false_ne_true)]
        exact dictSet_get_self _ (dictGet_dictSet_self ..)
      exact mem_settled_apply F1 F2 F3 F4 F7 F8 F9 F10 F11
  · -- the entries are non-empty and already settled
    have hne' : entries2.isEmpty = false := by
      revert hne
      cases entries2.isEmpty <;> simp
    rw [memCleanup_eq, if_neg (by rw [hne']; exact Bool.false_ne_true)]
    have F1 : dictGet (dictSet cfgC "plugins"
        (.obj (dictSet plugins1 "entries" (.obj entries2)))) "agents"
        = some (.obj (dictSet agents1 "defaults" (.obj defaults1))) := by
      rw [dictGet_dictSet_ne _ _ (by decide : ("agents" : String) ≠ "plugins")]
      exact hagents2
    have F7 : ensureObj (dictSet cfgC "plugins"
        (.obj (dictSet plugins1 "entries" (.obj entries2)))) "plugins"
        = some (dictSet cfgC "plugins"
            (.obj (dictSet plugins1 "entries" (.obj entries2))),
          dictSet plugins1 "entries" (.obj entries2)) :=
      ensureObj_of_get_obj (dictGet_dictSet_self ..)
    have F8 : ensureObj (dictSet plugins1 "entries" (.obj entries2)) "entries"
        = some (dictSet plugins1 "entries" (.obj entries2), entries2) :=
      ensureObj_of_get_obj (dictGet_dictSet_self ..)
    have F9 : pluginStep "openclaw-mem0" m0k (desiredMem0 m0k m0b m0u)
        "plugins.openclaw-mem0" "plugins.openclaw-mem0 disabled" entries2 []
        = some (entries2, []) := pluginStep_noop hS1
    have F10 : pluginStep "memory-cognee" cgk (desiredCognee cgk cgb)
        "plugins.memory-cognee" "plugins.memory-cognee disabled" entries2 []
        = some (entries2, []) := pluginStep_noop hS2
    have F11 : memCleanup (dictSet cfgC "plugins"
        (.obj (dictSet plugins1 "entries" (.obj entries2))))
        (dictSet plugins1 "entries" (.obj entries2)) entries2
        = dictSet cfgC "plugins"
            (.obj (dictSet plugins1 "entries" (.obj entries2))) := by
      rw [memCleanup_eq, if_neg (by rw [hne']; exact Bool.false_ne_true),
        dictSet_get_self _ (dictGet_dictSet_self ..)]
      exact dictSet_get_self _ (dictGet_dictSet_self ..)
    exact mem_settled_apply F1 F2 F3 F4 F7 F8 F9 F10 F11

/-- C2: Idempotence. Whenever an application of `apply_gateway_settings`
(resp. `apply_memory_settings`) succeeds with document `doc`, applying the
same settings to `doc` again returns `doc` itself with an empty change
list, and the second application performs no write (the no-changes branch
is taken). -/
theorem C2_idempotent {mode bind_mode : String} {port : Int} {eoa aia : Bool}
    {em si : Bool} {m0k m0b m0u cgk cgb : String}
    {cfgG cfgM : Option JVal} {docG docM : JVal}
    {chG : List Note} {chM : List String}
    (hg : apply_gateway_settings mode bind_mode port eoa aia cfgG = .ok docG chG)
    (hm : apply_memory_settings em si m0k m0b m0u cgk cgb cfgM = .ok docM chM) :
    apply_gateway_settings mode bind_mode port eoa aia (some docG) = .ok docG []
      ∧ gwWrites (apply_gateway_settings mode bind_mode port eoa aia (some docG))
          = false
      ∧ apply_memory_settings em si m0k m0b m0u cgk cgb (some docM) = .ok docM []
      ∧ memWrites (apply_memory_settings em si m0k m0b m0u cgk cgb (some docM))
          = false := by
  have h1 := gw_second_run hg
  have h2 := mem_second_run hm
  exact ⟨h1, by rw [h1]; rfl, h2, by rw [h2]; rfl⟩

/-- Witness for `C2_idempotent` at concrete settings, starting from the
empty store. -/
theorem C2_idempotent_witness :
    apply_gateway_settings "local" "loopback" 18789 false false
        (some (gwOkDoc (apply_gateway_settings "local" "loopback" 18789
          false false none)))
      = .ok (gwOkDoc (apply_gateway_settings "local" "loopback" 18789
          false false none)) []
    ∧ apply_memory_settings true false "mk" "" "" "" ""
        (some (memOkDoc (apply_memory_settings true false "mk" "" "" "" "" none)))
      = .ok (memOkDoc (apply_memory_settings true false "mk" "" "" "" "" none))
          [] := by
  have h := C2_idempotent
    (show apply_gateway_settings "local" "loopback" 18789 false false none
      = .ok (gwOkDoc (apply_gateway_settings "local" "loopback" 18789
          false false none))
        (gwOkCh (apply_gateway_settings "local" "loopback" 18789
          false false none)) from rfl)
    (show apply_memory_settings true false "mk" "" "" "" "" none
      = .ok (memOkDoc (apply_memory_settings true false "mk" "" "" "" "" none))
        (memOkCh (apply_memory_settings true false "mk" "" "" "" "" none))
      from rfl)
  exact ⟨h.1, h.2.2.1⟩

/-! ### Preservation of paths outside the managed sub-trees -/

theorem outside_append (A B : List (List String)) (p : List String) :
    outside (A ++ B) p = (outside A p && outside B p) := by
  simp [outside, List.all_append]

theorem managedPaths_split :
    managedPaths = gwInner.map ("gateway" :: ·) ++ agInner.map ("agents" :: ·)
      ++ plInner.map ("plugins" :: ·) := rfl

theorem outside_gwInner_elim {q : List String} (h : outside gwInner q = true) :
    pathLE ["mode"] q = false ∧ pathLE q ["mode"] = false ∧
    pathLE ["bind"] q = false ∧ pathLE q ["bind"] = false ∧
    pathLE ["port"] q = false ∧ pathLE q ["port"] = false ∧
    pathLE ["http", "endpoints", "chatCompletions", "enabled"] q = false ∧
    pathLE q ["http", "endpoints", "chatCompletions", "enabled"] = false ∧
    pathLE ["controlUi", "allowInsecureAuth"] q = false ∧
    pathLE q ["controlUi", "allowInsecureAuth"] = false := by
  simp only [gwInner, outside, List.all_cons, List.all_nil, Bool.and_true,
    Bool.and_eq_true, Bool.not_eq_true'] at h
  tauto

theorem outside_agInner_elim {q : List String} (h : outside agInner q = true) :
    pathLE ["defaults", "memorySearch"] q = false ∧
    pathLE q ["defaults", "memorySearch"] = false ∧
    pathLE ["defaults", "compaction"] q = false ∧
    pathLE q ["defaults", "compaction"] = false := by
  simp only [agInner, outside, List.all_cons, List.all_nil, Bool.and_true,
    Bool.and_eq_true, Bool.not_eq_true'] at h
  tauto

theorem outside_plInner_elim {q : List String} (h : outside plInner q = true) :
    pathLE ["entries", "openclaw-mem0"] q = false ∧
    pathLE q ["entries", "openclaw-mem0"] = false ∧
    pathLE ["entries", "memory-cognee"] q = false ∧
    pathLE q ["entries", "memory-cognee"] = false := by
  simp only [plInner, outside, List.all_cons, List.all_nil, Bool.and_true,
    Bool.and_eq_true, Bool.not_eq_true'] at h
  tauto

theorem outside_managed_gateway {q : List String}
    (h : outside managedPaths ("gateway" :: q) = true) : outside gwInner q = true := by
  rw [managedPaths_split, outside_append, outside_append] at h
  simp only [Bool.and_eq_true] at h
  have h1 := h.1.1
  rwa [outside_map_cons] at h1

theorem outside_managed_agents {q : List String}
    (h : outside managedPaths ("agents" :: q) = true) : outside agInner q = true := by
  rw [managedPaths_split, outside_append, outside_append] at h
  simp only [Bool.and_eq_true] at h
  have h1 := h.1.2
  rwa [outside_map_cons] at h1

theorem outside_managed_plugins {q : List String}
    (h : outside managedPaths ("plugins" :: q) = true) : outside plInner q = true := by
  rw [managedPaths_split, outside_append, outside_append] at h
  simp only [Bool.and_eq_true] at h
  have h1 := h.2
  rwa [outside_map_cons] at h1

theorem getPath_obj_nil {q : List String} (h : q ≠ []) :
    getPath (.obj []) q = none := by
  cases q with
  | nil => exact absurd rfl h
  | cons a b => rfl

/-- `updateField` only touches its own key: every path avoiding the key is
unchanged. -/
theorem preserve_updateField {fs : List (String × JVal)} {key : String}
    {dflt desired : JVal} {n : String} {q : List String}
    (ha : pathLE [key] q = false) (hb : pathLE q [key] = false) :
    getPath (.obj (updateField fs key dflt desired n).1) q
      = getPath (.obj fs) q := by
  cases q with
  | nil => simp [pathLE] at hb
  | cons k' q' =>
    by_cases hk : k' = key
    · subst hk
      simp [pathLE] at ha
    · rw [getPath_obj_cons, getPath_obj_cons, updateField_get_ne _ _ _ _ _ hk]

/-- The merged `chatCompletions` container agrees with the original
`endpoints` fields on every path outside `chatCompletions.enabled`. -/
theorem gw_ep_preserve {eoa : Bool} {ep0 ep1 cc0 : List (String × JVal)}
    (hF : ensureObj ep0 "chatCompletions" = some (ep1, cc0))
    {q : List String}
    (ha : pathLE ["chatCompletions", "enabled"] q = false)
    (hb : pathLE q ["chatCompletions", "enabled"] = false) :
    getPath (.obj (dictSet ep1 "chatCompletions"
        (.obj (updateField cc0 "enabled" (.bool false) (.bool eoa)
          "chatCompletions.enabled").1))) q
      = getPath (.obj ep0) q := by
  cases q with
  | nil => simp [pathLE] at hb
  | cons k q' =>
    rw [getPath_obj_cons, getPath_obj_cons]
    by_cases hk : k = "chatCompletions"
    · subst hk
      rw [dictGet_dictSet_self]
      rw [pathLE_cons_same] at ha hb
      rcases ensureObj_cases hF with ⟨hg, _⟩ | ⟨hg, _, hc0⟩
      · rw [hg, getPathO_some, getPathO_some]
        exact preserve_updateField ha hb
      · subst hc0
        rw [hg, getPathO_some, getPathO_none, preserve_updateField ha hb,
          getPath_obj_nil (by rintro rfl; simp [pathLE] at hb)]
    · rw [dictGet_dictSet_ne _ _ hk, ensureObj_get_ne hF hk]

/-- The merged `http` container agrees with the original `http` fields on
every path outside `endpoints.chatCompletions.enabled`. -/
theorem gw_http_preserve {eoa : Bool} {http0 http1 ep0 ep1 cc0 : List (String × JVal)}
    (hE : ensureObj http0 "endpoints" = some (http1, ep0))
    (hF : ensureObj ep0 "chatCompletions" = some (ep1, cc0))
    {q : List String}
    (ha : pathLE ["endpoints", "chatCompletions", "enabled"] q = false)
    (hb : pathLE q ["endpoints", "chatCompletions", "enabled"] = false) :
    getPath (.obj (dictSet http1 "endpoints" (.obj (dictSet ep1 "chatCompletions"
        (.obj (updateField cc0 "enabled" (.bool false) (.bool eoa)
          "chatCompletions.enabled").1))))) q
      = getPath (.obj http0) q := by
  cases q with
  | nil => simp [pathLE] at hb
  | cons k q' =>
    rw [getPath_obj_cons, getPath_obj_cons]
    by_cases hk : k = "endpoints"
    · subst hk
      rw [dictGet_dictSet_self]
      rw [pathLE_cons_same] at ha hb
      rcases ensureObj_cases hE with ⟨hg, _⟩ | ⟨hg, _, he0⟩
      · rw [hg, getPathO_some, getPathO_some]
        exact gw_ep_preserve hF ha hb
      · subst he0
        rw [hg, getPathO_some, getPathO_none, gw_ep_preserve hF ha hb,
          getPath_obj_nil (by rintro rfl; simp [pathLE] at hb)]
    · rw [dictGet_dictSet_ne _ _ hk, ensureObj_get_ne hE hk]

/-- The fully merged gateway dict agrees with the original `gateway` fields
on every path outside the five managed gateway sub-paths. -/
theorem gw_inner_preserve {mode bind_mode : String} {port : Int} {eoa aia : Bool}
    {gw0 gw1 cu0 gw2 http0 http1 ep0 ep1 cc0 : List (String × JVal)}
    (hC : ensureObj gw0 "controlUi" = some (gw1, cu0))
    (hD : ensureObj gw1 "http" = some (gw2, http0))
    (hE : ensureObj http0 "endpoints" = some (http1, ep0))
    (hF : ensureObj ep0 "chatCompletions" = some (ep1, cc0))
    {q : List String} (hq : outside gwInner q = true) :
    getPath (.obj (dictSet (dictSet (updateField (updateField (updateField gw2
        "mode" (.str "") (.str mode) "mode").1
        "bind" (.str "") (.str bind_mode) "bind").1
        "port" (.num 18789) (.num port) "port").1
        "http" (.obj (dictSet http1 "endpoints" (.obj (dictSet ep1
          "chatCompletions" (.obj (updateField cc0 "enabled" (.bool false)
            (.bool eoa) "chatCompletions.enabled").1))))))
        "controlUi" (.obj (updateField cu0 "allowInsecureAuth" (.bool false)
          (.bool aia) "allowInsecureAuth").1))) q
      = getPath (.obj gw0) q := by
  obtain ⟨h1a, h1b, h2a, h2b, h3a, h3b, h4a, h4b, h5a, h5b⟩ :=
    outside_gwInner_elim hq
  cases q with
  | nil => simp [pathLE] at h1b
  | cons k q' =>
    rw [getPath_obj_cons, getPath_obj_cons]
    by_cases hcu : k = "controlUi"
    · subst hcu
      rw [dictGet_dictSet_self]
      rw [pathLE_cons_same] at h5a h5b
      rcases ensureObj_cases hC with ⟨hg, _⟩ | ⟨hg, _, hc0⟩
      · rw [hg, getPathO_some, getPathO_some]
        exact preserve_updateField h5a h5b
      · subst hc0
        rw [hg, getPathO_some, getPathO_none, preserve_updateField h5a h5b,
          getPath_obj_nil (by rintro rfl; simp [pathLE] at h5b)]
    · by_cases hhttp : k = "http"
      · subst hhttp
        rw [dictGet_dictSet_ne _ _ (by decide : ("http" : String) ≠ "controlUi"),
          dictGet_dictSet_self]
        rw [pathLE_cons_same] at h4a h4b
        rw [← ensureObj_get_ne hC (by decide : ("http" : String) ≠ "controlUi")]
        rcases ensureObj_cases hD with ⟨hg, _⟩ | ⟨hg, _, hh0⟩
        · rw [hg, getPathO_some, getPathO_some]
          exact gw_http_preserve hE hF h4a h4b
        · subst hh0
          rw [hg, getPathO_some, getPathO_none, gw_http_preserve hE hF h4a h4b,
            getPath_obj_nil (by rintro rfl; simp [pathLE] at h4b)]
      · have hmode : k ≠ "mode" := by rintro rfl; simp [pathLE] at h1a
        have hbind : k ≠ "bind" := by rintro rfl; simp [pathLE] at h2a
        have hport : k ≠ "port" := by rintro rfl; simp [pathLE] at h3a
        rw [dictGet_dictSet_ne _ _ hcu, dictGet_dictSet_ne _ _ hhttp,
          updateField_get_ne _ _ _ _ _ hport, updateField_get_ne _ _ _ _ _ hbind,
          updateField_get_ne _ _ _ _ _ hmode,
          ensureObj_get_ne hD hhttp, ensureObj_get_ne hC hcu]

/-- A successful gateway merge leaves every path outside the managed
sub-trees exactly as in the original root fields. -/
theorem gw_preserve {mode bind_mode : String} {port : Int} {eoa aia : Bool}
    {cfgA cfgB gw0 gw1 cu0 gw2 http0 http1 ep0 ep1 cc0 : List (String × JVal)}
    (hB : ensureObj cfgA "gateway" = some (cfgB, gw0))
    (hC : ensureObj gw0 "controlUi" = some (gw1, cu0))
    (hD : ensureObj gw1 "http" = some (gw2, http0))
    (hE : ensureObj http0 "endpoints" = some (http1, ep0))
    (hF : ensureObj ep0 "chatCompletions" = some (ep1, cc0)) :
    ∀ p, outside managedPaths p = true →
      getPath (gwMerge mode bind_mode port eoa aia cfgB gw2 cu0 http1 ep1 cc0).1 p
        = getPath (.obj cfgA) p := by
  intro p hp
  have hout : (gwMerge mode bind_mode port eoa aia cfgB gw2 cu0 http1 ep1 cc0).1
      = .obj (dictSet cfgB "gateway"
        (.obj (dictSet (dictSet (updateField (updateField (updateField gw2
          "mode" (.str "") (.str mode) "mode").1
          "bind" (.str "") (.str bind_mode) "bind").1
          "port" (.num 18789) (.num port) "port").1
          "http" (.obj (dictSet http1 "endpoints" (.obj (dictSet ep1
            "chatCompletions" (.obj (updateField cc0 "enabled" (.bool false)
              (.bool eoa) "chatCompletions.enabled").1))))))
          "controlUi" (.obj (updateField cu0 "allowInsecureAuth" (.bool false)
            (.bool aia) "allowInsecureAuth").1)))) := rfl
  rw [hout]
  cases p with
  | nil => exact absurd hp (by decide)
  | cons k q =>
    rw [getPath_obj_cons, getPath_obj_cons]
    by_cases hk : k = "gateway"
    · subst hk
      have hq := outside_managed_gateway hp
      rw [dictGet_dictSet_self]
      rcases ensureObj_cases hB with ⟨hg, _⟩ | ⟨hg, _, hg0⟩
      · rw [hg, getPathO_some, getPathO_some]
        exact gw_inner_preserve hC hD hE hF hq
      · subst hg0
        rw [hg, getPathO_some, getPathO_none, gw_inner_preserve hC hD hE hF hq,
          getPath_obj_nil (by rintro rfl; exact absurd hq (by decide))]
    · rw [dictGet_dictSet_ne _ _ hk, ensureObj_get_ne hB hk]

/-- The defaults merge agrees with the original `defaults` fields on every
path avoiding `memorySearch` and `compaction`. -/
theorem mem_defaults_preserve {em si : Bool} {defaults0 curMS : List (String × JVal)}
    {q : List String}
    (h1a : pathLE ["memorySearch"] q = false)
    (h2a : pathLE ["compaction"] q = false)
    (hb : pathLE q ["memorySearch"] = false) :
    getPath (.obj (memDefaults em si defaults0 curMS).1) q
      = getPath (.obj defaults0) q := by
  cases q with
  | nil => simp [pathLE] at hb
  | cons k q' =>
    have hms : k ≠ "memorySearch" := by rintro rfl; simp [pathLE] at h1a
    have hcp : k ≠ "compaction" := by rintro rfl; simp [pathLE] at h2a
    rw [getPath_obj_cons, getPath_obj_cons, memDefaults_get_other _ _ hms hcp]

/-- The rebuilt `agents` dict agrees with the original one on every path
outside the two managed `defaults` sub-paths. -/
theorem mem_agents_preserve {em si : Bool}
    {agents0 agents1 defaults0 curMS : List (String × JVal)}
    (hC : ensureObj agents0 "defaults" = some (agents1, defaults0))
    {q : List String} (hq : outside agInner q = true) :
    getPath (.obj (dictSet agents1 "defaults"
        (.obj (memDefaults em si defaults0 curMS).1))) q
      = getPath (.obj agents0) q := by
  obtain ⟨h1a, h1b, h2a, h2b⟩ := outside_agInner_elim hq
  cases q with
  | nil => simp [pathLE] at h1b
  | cons k q' =>
    rw [getPath_obj_cons, getPath_obj_cons]
    by_cases hk : k = "defaults"
    · subst hk
      rw [dictGet_dictSet_self]
      rw [pathLE_cons_same] at h1a h1b h2a
      rcases ensureObj_cases hC with ⟨hg, _⟩ | ⟨hg, _, hd0⟩
      · rw [hg, getPathO_some, getPathO_some]
        exact mem_defaults_preserve h1a h2a h1b
      · subst hd0
        rw [hg, getPathO_some, getPathO_none, mem_defaults_preserve h1a h2a h1b,
          getPath_obj_nil (by rintro rfl; simp [pathLE] at h1b)]
    · rw [dictGet_dictSet_ne _ _ hk, ensureObj_get_ne hC hk]

/-- The `plugins` child of the cleaned-up document agrees with the original
`plugins` dict on every path outside the two managed entries. -/
theorem mem_plugins_preserve {m0k m0b m0u cgk cgb : String}
    {cfgC plugins0 plugins1 entries0 entries1 entries2 : List (String × JVal)}
    {chD chA ch : List String}
    (hG : ensureObj plugins0 "entries" = some (plugins1, entries0))
    (hH : pluginStep "openclaw-mem0" m0k (desiredMem0 m0k m0b m0u)
      "plugins.openclaw-mem0" "plugins.openclaw-mem0 disabled" entries0 chD
      = some (entries1, chA))
    (hI : pluginStep "memory-cognee" cgk (desiredCognee cgk cgb)
      "plugins.memory-cognee" "plugins.memory-cognee disabled" entries1 chA
      = some (entries2, ch))
    {q : List String} (hq : outside plInner q = true) :
    getPathO (dictGet (memCleanup cfgC plugins1 entries2) "plugins") q
      = getPath (.obj plugins0) q := by
  obtain ⟨h1a, h1b, h2a, h2b⟩ := outside_plInner_elim hq
  have hE2 : ∀ k, k ≠ "openclaw-mem0" → k ≠ "memory-cognee" →
      dictGet entries2 k = dictGet entries0 k := fun k hk1 hk2 =>
    (pluginStep_get_ne hI hk2).trans (pluginStep_get_ne hH hk1)
  rw [memCleanup_eq]
  cases q with
  | nil => simp [pathLE] at h1b
  | cons k q' =>
    by_cases hk : k = "entries"
    · subst hk
      rw [pathLE_cons_same] at h1a h1b h2a
      rw [getPath_obj_cons]
      by_cases hne : entries2.isEmpty = true
      · rw [if_pos hne]
        have hent2 : entries2 = [] := by
          cases entries2 with
          | nil => rfl
          | cons a b => simp [List.isEmpty] at hne
        subst hent2
        have hRHS : getPathO (dictGet plugins0 "entries") q' = none := by
          rcases ensureObj_cases hG with ⟨hg, _⟩ | ⟨hg, _, he0⟩
          · rw [hg, getPathO_some]
            cases q' with
            | nil => simp [pathLE] at h1b
            | cons k2 q2 =>
              have hk2a : k2 ≠ "openclaw-mem0" := by rintro rfl; simp [pathLE] at h1a
              have hk2b : k2 ≠ "memory-cognee" := by rintro rfl; simp [pathLE] at h2a
              rw [getPath_obj_cons, ← hE2 k2 hk2a hk2b]
              rfl
          · rw [hg]
            rfl
        by_cases hPL : (dictDel plugins1 "entries").isEmpty = true
        · rw [if_pos hPL, dictGet_dictDel_self, hRHS]
          rfl
        · rw [if_neg hPL, dictGet_dictSet_self, getPathO_some, getPath_obj_cons,
            dictGet_dictDel_self, hRHS]
          rfl
      · rw [if_neg hne, dictGet_dictSet_self, getPathO_some, getPath_obj_cons,
          dictGet_dictSet_self, getPathO_some]
        cases q' with
        | nil => simp [pathLE] at h1b
        | cons k2 q2 =>
          have hk2a : k2 ≠ "openclaw-mem0" := by rintro rfl; simp [pathLE] at h1a
          have hk2b : k2 ≠ "memory-cognee" := by rintro rfl; simp [pathLE] at h2a
          rw [getPath_obj_cons, hE2 k2 hk2a hk2b]
          rcases ensureObj_cases hG with ⟨hg, _⟩ | ⟨hg, _, he0⟩
          · rw [hg, getPathO_some, getPath_obj_cons]
          · subst he0
            rw [hg]
            rfl
    · have hplk : dictGet plugins1 k = dictGet plugins0 k := ensureObj_get_ne hG hk
      rw [getPath_obj_cons]
      by_cases hne : entries2.isEmpty = true
      · rw [if_pos hne]
        by_cases hPL : (dictDel plugins1 "entries").isEmpty = true
        · rw [if_pos hPL, dictGet_dictDel_self]
          have hnone : dictGet plugins0 k = none := by
            rw [← hplk, ← dictGet_dictDel_ne plugins1 hk]
            exact dictGet_of_isEmpty _ _ hPL
          rw [hnone]
          rfl
        · rw [if_neg hPL, dictGet_dictSet_self, getPathO_some, getPath_obj_cons,
            dictGet_dictDel_ne plugins1 hk, hplk]
      · rw [if_neg hne, dictGet_dictSet_self, getPathO_some, getPath_obj_cons,
          dictGet_dictSet_ne _ _ hk, hplk]

/-- A successful memory merge leaves every path outside the managed
sub-trees exactly as in the original root fields. -/
theorem mem_preserve {em si : Bool} {m0k m0b m0u cgk cgb : String}
    {cfgA cfgB agents0 agents1 defaults0 curMS defaults1 : List (String × JVal)}
    {chD : List String}
    {cfgC plugins0 plugins1 entries0 entries1 entries2 : List (String × JVal)}
    {chA ch : List String}
    (hB : ensureObj cfgA "agents" = some (cfgB, agents0))
    (hC : ensureObj agents0 "defaults" = some (agents1, defaults0))
    (hE : memDefaults em si defaults0 curMS = (defaults1, chD))
    (hF : ensureObj (dictSet cfgB "agents"
        (.obj (dictSet agents1 "defaults" (.obj defaults1)))) "plugins"
      = some (cfgC, plugins0))
    (hG : ensureObj plugins0 "entries" = some (plugins1, entries0))
    (hH : pluginStep "openclaw-mem0" m0k (desiredMem0 m0k m0b m0u)
      "plugins.openclaw-mem0" "plugins.openclaw-mem0 disabled" entries0 chD
      = some (entries1, chA))
    (hI : pluginStep "memory-cognee" cgk (desiredCognee cgk cgb)
      "plugins.memory-cognee" "plugins.memory-cognee disabled" entries1 chA
      = some (entries2, ch)) :
    ∀ p, outside managedPaths p = true →
      getPath (.obj (memCleanup cfgC plugins1 entries2)) p
        = getPath (.obj cfgA) p := by
  intro p hp
  cases p with
  | nil => exact absurd hp (by decide)
  | cons k q =>
    rw [getPath_obj_cons, getPath_obj_cons]
    by_cases hag : k = "agents"
    · subst hag
      have hq := outside_managed_agents hp
      rw [memCleanup_get_ne _ _ _ (by decide : ("agents" : String) ≠ "plugins"),
        ensureObj_get_ne hF (by decide : ("agents" : String) ≠ "plugins"),
        dictGet_dictSet_self,
        show defaults1 = (memDefaults em si defaults0 curMS).1 from by rw [hE]]
      rcases ensureObj_cases hB with ⟨hg, _⟩ | ⟨hg, _, ha0⟩
      · rw [hg, getPathO_some, getPathO_some]
        exact mem_agents_preserve hC hq
      · subst ha0
        rw [hg, getPathO_some, getPathO_none, mem_agents_preserve hC hq,
          getPath_obj_nil (by rintro rfl; exact absurd hq (by decide))]
    · by_cases hpl : k = "plugins"
      · subst hpl
        have hq := outside_managed_plugins hp
        have hAB : dictGet (dictSet cfgB "agents"
            (.obj (dictSet agents1 "defaults" (.obj defaults1)))) "plugins"
            = dictGet cfgA "plugins" := by
          rw [dictGet_dictSet_ne _ _ (by decide : ("plugins" : String) ≠ "agents"),
            ensureObj_get_ne hB (by decide : ("plugins" : String) ≠ "agents")]
        rw [← hAB]
        rcases ensureObj_cases hF with ⟨hg, _⟩ | ⟨hg, _, hp0⟩
        · rw [hg, getPathO_some]
          exact mem_plugins_preserve hG hH hI hq
        · subst hp0
          rw [hg, getPathO_none, mem_plugins_preserve hG hH hI hq,
            getPath_obj_nil (by rintro rfl; exact absurd hq (by decide))]
      · rw [memCleanup_get_ne _ _ _ hpl, ensureObj_get_ne hF hpl,
          dictGet_dictSet_ne _ _ hag, ensureObj_get_ne hB hag]

/-- C1: Frame preservation. For every input document and every successful
application of gateway or memory settings, every path of the document that
lies outside the managed sub-trees (`gateway.mode`, `gateway.bind`,
`gateway.port`, `gateway.http.endpoints.chatCompletions.enabled`,
`gateway.controlUi.allowInsecureAuth`, `agents.defaults.memorySearch`,
`agents.defaults.compaction`, `plugins.entries.openclaw-mem0`,
`plugins.entries.memory-cognee`) resolves in the produced document to
exactly the same value as in the input document: user keys are present and
unchanged, and no stray keys appear outside the managed sub-trees. -/
theorem C1_preservation {mode bind_mode : String} {port : Int}
    {eoa aia em si : Bool} {m0k m0b m0u cgk cgb : String}
    {doc0G doc0M docG docM : JVal} {chG : List Note} {chM : List String}
    {p q : List String}
    (hg : apply_gateway_settings mode bind_mode port eoa aia (some doc0G)
      = .ok docG chG)
    (hm : apply_memory_settings em si m0k m0b m0u cgk cgb (some doc0M)
      = .ok docM chM)
    (hp : outside managedPaths p = true) (hq : outside managedPaths q = true) :
    getPath docG p = getPath doc0G p ∧ getPath docM q = getPath doc0M q := by
  constructor
  · obtain ⟨cfgA, cfgB, gw0, gw1, cu0, gw2, http0, http1, ep0, ep1, cc0,
      _, _, _, hA, hB, hC, hD, hE, hF, hdoc, _⟩ := gw_ok_elim hg
    rcases rootFields_cases hA with hdg | ⟨hnone, _⟩
    · have hdg' : doc0G = .obj cfgA := Option.some.inj hdg
      subst hdoc
      rw [hdg']
      exact gw_preserve hB hC hD hE hF p hp
    · exact Option.noConfusion hnone
  · obtain ⟨cfgA, cfgB, agents0, agents1, defaults0, curMS, defaults1, chD, cfgC,
      plugins0, plugins1, entries0, entries1, chA, entries2,
      hA, hB, hC, _, hE, hF, hG, hH, hI, hdoc⟩ := mem_ok_elim hm
    rcases rootFields_cases hA with hdm | ⟨hnone, _⟩
    · have hdm' : doc0M = .obj cfgA := Option.some.inj hdm
      subst hdoc
      rw [hdm']
      exact mem_preserve hB hC hE hF hG hH hI q hq
    · exact Option.noConfusion hnone

/-- Witness for `C1_preservation`: a user key `keep` at the document root
survives both merges unchanged. -/
theorem C1_preservation_witness :
    getPath (gwOkDoc (apply_gateway_settings "local" "loopback" 18789 false false
        (some (.obj [("keep", .str "v")])))) ["keep"]
      = getPath (.obj [("keep", .str "v")]) ["keep"]
    ∧ getPath (memOkDoc (apply_memory_settings true false "" "" "" "" ""
        (some (.obj [("keep", .str "v")])))) ["keep"]
      = getPath (.obj [("keep", .str "v")]) ["keep"] :=
  C1_preservation
    (show apply_gateway_settings "local" "loopback" 18789 false false
        (some (.obj [("keep", .str "v")]))
      = .ok (gwOkDoc (apply_gateway_settings "local" "loopback" 18789 false false
          (some (.obj [("keep", .str "v")]))))
        (gwOkCh (apply_gateway_settings "local" "loopback" 18789 false false
          (some (.obj [("keep", .str "v")])))) from rfl)
    (show apply_memory_settings true false "" "" "" "" ""
        (some (.obj [("keep", .str "v")]))
      = .ok (memOkDoc (apply_memory_settings true false "" "" "" "" ""
          (some (.obj [("keep", .str "v")]))))
        (memOkCh (apply_memory_settings true false "" "" "" "" ""
          (some (.obj [("keep", .str "v")])))) from rfl)
    (by decide) (by decide)
